import Mathlib

/-!
Jaw, the RPC framework of neato-pi.

A shallow embedding of the framework core (identifier, wire codec, server dispatch, client,
socket address) and of the camera protocol built on it, together with the properties
established about them.

Conventions of the embedding

* An octet is a `Fin 256`; a `std::string` is a Lean `String`, one `Char` per `char`.
* A pointer into an array is an offset into the list holding the array; where the source
  walks a C string through a `const char*`, the pointer is the remaining suffix of the
  NUL-terminated array.
* A C++ exception is a value of `Thrown`; a function that may throw returns `Except Thrown _`.
* Fundamental values are copied as raw memory by the source; the host is taken to be
  little-endian (x86, ARM), so an integer of `size` bytes is its two's complement in
  little-endian order.
* `std::size_t` arithmetic is taken modulo `2 ^ w`, the width `w` of the size type being a
  parameter of every decoding function.
* A `float` is the fraction of integers it equals; the conversion of an integer to `float`
  and the product of two `float` are rounded as IEEE 754 binary32 arithmetic rounds them, to
  the nearest `float`, ties to the even significand.
* Where the behaviour of the source is undefined (a copy from outside the memory a pointer
  points into, a division by zero, an `int` that overflows), the result is `none`.
-/

namespace Jaw

/-! ## Bytes, error codes, exceptions -/

/-- An octet (`uint8_t`, `unsigned char`). -/
abbrev Byte := Fin 256

/-- The conversion `static_cast<unsigned char>(x)` of an integer: reduction modulo 256. -/
def Byte.ofInt (x : Int) : Byte := ⟨(x % 256).toNat, by omega⟩

/-- The members of `std::errc` the framework uses. -/
inductive Errc where
  | operation_not_permitted
  | invalid_argument
  | result_out_of_range
  | bad_message
  | operation_not_supported
  | not_connected
  | timed_out
  | connection_already_in_progress
  | state_not_recoverable
deriving DecidableEq, Repr

/-- The integer value of an error condition (`static_cast<int>(std::errc::...)`), in the
Linux errno numbering. -/
def Errc.value : Errc → Int
  | .operation_not_permitted => 1
  | .invalid_argument => 22
  | .result_out_of_range => 34
  | .bad_message => 74
  | .operation_not_supported => 95
  | .not_connected => 107
  | .timed_out => 110
  | .connection_already_in_progress => 114
  | .state_not_recoverable => 131

/-- A thrown C++ value, classified the way the catch clauses of the framework tell them apart. -/
inductive Thrown where
  /-- The exception `Jaw::Exception(code, detail)`, a `std::system_error`. -/
  | jaw (code : Errc) (detail : String)
  /-- A `std::system_error` that is not a `Jaw::Exception` (thrown by the standard library, for
  instance when a thread cannot be started), with `code().value()` and `what()`. -/
  | system_error (value : Int) (what : String)
  /-- Any other exception derived from `std::exception` (`std::runtime_error`,
  `std::length_error`, ...), with its `what()`. -/
  | std_exception (what : String)
  /-- A thrown value that does not derive from `std::exception`. -/
  | foreign
deriving DecidableEq, Repr

deriving instance DecidableEq for Except

/-! ## Identifier (jaw_guid.cpp) -/

/-- The class `Guid`: the array `unsigned char bytes_[16]`. -/
structure Guid where
  bytes_ : List Byte
  size_eq : bytes_.length = 16
deriving DecidableEq

/-- The constructor `Guid::Guid()`: all bytes zero. -/
def Guid.zero : Guid := ⟨List.replicate 16 0, by simp⟩

/-- The constructor `Guid::Guid(unsigned char (&bytes)[16])`: copies sixteen bytes starting at
`bytes`; bytes missing from the source region read as zero. -/
def Guid.ofBytes (bytes : List Byte) : Guid :=
  ⟨(List.range 16).map (fun i => bytes.getD i 0), by simp⟩

/-- The assignment `bytes_[i] = b` (also written `*memory = b` with `memory = bytes_ + i`). -/
def Guid.set (g : Guid) (i : Nat) (b : Byte) : Guid :=
  ⟨g.bytes_.set i b, by simp [g.size_eq]⟩

/-- The read `bytes_[i]` (also `*memory`). -/
def Guid.get (g : Guid) (i : Nat) : Byte := g.bytes_.getD i 0

inductive Endianess where
  | LITTLE
  | BIG
deriving DecidableEq, Repr

structure block_info where
  size : Nat
  order : Endianess
deriving DecidableEq, Repr

def guid_specification : List block_info :=
  [⟨4, .LITTLE⟩, ⟨2, .LITTLE⟩, ⟨2, .LITTLE⟩, ⟨2, .BIG⟩, ⟨6, .BIG⟩]

/-- The character `'\0'`. -/
def NUL : Char := Char.ofNat 0

/-- What `operator<<(int)` prints under `std::hex << std::uppercase`: the hexadecimal digits
of a non-negative value, most significant first, letters in upper case. -/
def hex_upper (n : Nat) : List Char := (Nat.toDigits 16 n).map Char.toUpper

/-- The effect of `std::setw(width)` with `std::setfill(fill)` on one output field: shorter
fields are padded on the left, longer ones are printed in full. -/
def setw (width : Nat) (fill : Char) (field : List Char) : List Char :=
  List.replicate (width - field.length) fill ++ field

/-- The inner loop of `Guid::to_string`: `count` bytes are printed, starting at `memory` and
moving by `step`. -/
def to_string_bytes (g : Guid) (step : Int) : (count : Nat) → (memory : Int) → List Char → List Char
  | 0, _, guid_str => guid_str
  | count + 1, memory, guid_str =>
    to_string_bytes g step count (memory + step)
      (guid_str ++ setw 2 '0' (hex_upper (g.get memory.toNat).val))

/-- The outer loop of `Guid::to_string` over the blocks of the specification; `bytes` is the
offset of the current block. -/
def to_string_blocks (g : Guid) : List block_info → (bytes : Int) → List Char → List Char
  | [], _, guid_str => guid_str
  | block :: spec, bytes, guid_str =>
    let memory : Int := if block.order = Endianess.LITTLE then bytes + block.size - 1 else bytes
    let step : Int := if block.order = Endianess.LITTLE then -1 else 1
    let guid_str := to_string_bytes g step block.size memory guid_str
    to_string_blocks g spec (bytes + block.size) (guid_str ++ ['-'])

/-- The method `Guid::to_string`. -/
def Guid.to_string (g : Guid) : String :=
  let result := to_string_blocks g guid_specification 0 ['\x7b']
  -- result.back() = '}'
  String.mk (result.dropLast ++ ['\x7d'])

/-- The method `Guid::generate`; `draw i` is the value the uniform distribution over 0..255
returns at the i-th call. -/
def Guid.generate (draw : Nat → Byte) : Guid :=
  let result := (List.range 16).foldl (fun (r : Guid) i => r.set i (draw i)) Guid.zero
  let result := result.set 8 (Byte.ofInt ((result.get 8).val &&& 0x3F : Nat))
  let result := result.set 8 (Byte.ofInt ((result.get 8).val ||| 0x80 : Nat))
  let result := result.set 7 (Byte.ofInt ((result.get 7).val &&& 0x0F : Nat))
  let result := result.set 7 (Byte.ofInt ((result.get 7).val ||| 0x40 : Nat))
  result

/-- The predicate `iswspace` in the C locale. -/
def iswspace (c : Char) : Bool :=
  c.toNat = 32 || (9 ≤ c.toNat && c.toNat ≤ 13)

/-- The value of a character as a hexadecimal digit, if it is one. -/
def hex_value (c : Char) : Option Nat :=
  if 48 ≤ c.toNat ∧ c.toNat ≤ 57 then some (c.toNat - 48)
  else if 65 ≤ c.toNat ∧ c.toNat ≤ 70 then some (c.toNat - 55)
  else if 97 ≤ c.toNat ∧ c.toNat ≤ 102 then some (c.toNat - 87)
  else none

/-- The digits `wcstol` consumes: the longest run of hexadecimal digits, accumulated. -/
def wcstol_digits : List Char → Nat → Nat
  | [], acc => acc
  | c :: cs, acc =>
    match hex_value c with
    | some d => wcstol_digits cs (16 * acc + d)
    | none => acc

/-- The library call `wcstol(nptr, nullptr, 16)`: leading white space, an optional sign, an
optional `0x` or `0X` that a hexadecimal digit follows, then the longest run of hexadecimal
digits; zero when there is none. The clamp to the range of `long` is left out: the source
passes two characters, whose value is below 256. -/
def wcstol16 (nptr : List Char) : Int :=
  let s := nptr.dropWhile iswspace
  let signed : Bool × List Char :=
    match s with
    | [] => (false, s)
    | c :: r => if c.toNat = 45 then (true, r) else if c.toNat = 43 then (false, r) else (false, s)
  let digits : List Char :=
    match signed.2 with
    | z :: x :: d :: r =>
      if z.toNat = 48 ∧ (x.toNat = 120 ∨ x.toNat = 88) ∧ (hex_value d).isSome then d :: r
      else signed.2
    | _ => signed.2
  let v : Int := wcstol_digits digits 0
  if signed.1 then -v else v

/-- The inner loop of `Guid::from_string`: `count` times, two characters are copied from
`guid_str` into `byte_str`, converted, and stored at `memory`. The result is `none` when the
copy reads past the end of the character array (undefined behaviour in the source). -/
def from_string_bytes (step : Int) :
    (count : Nat) → (memory : Int) → (guid_str : List Char) → Guid → Option (List Char × Guid)
  | 0, _, guid_str, result => some (guid_str, result)
  | count + 1, memory, guid_str, result =>
    match guid_str with
    | c0 :: c1 :: rest =>
      let byte_str : List Char := [c0, c1, NUL]
      from_string_bytes step count (memory + step) rest
        (result.set memory.toNat (Byte.ofInt (wcstol16 byte_str)))
    | _ => none

/-- The outer loop of `Guid::from_string` over the blocks of the specification. -/
def from_string_blocks :
    List block_info → (bytes : Int) → (guid_str : List Char) → Guid → Option (Except Thrown Guid)
  | [], _, _, result => some (.ok result)
  | block :: spec, bytes, guid_str, result =>
    let memory : Int := if block.order = Endianess.LITTLE then bytes + block.size - 1 else bytes
    let step : Int := if block.order = Endianess.LITTLE then -1 else 1
    match from_string_bytes step block.size memory guid_str result with
    | none => none
    | some (guid_str, result) =>
      match guid_str with
      | [] => none
      | c :: rest =>
        -- Verify block finished as expected
        if c ≠ '-' ∧ c ≠ '\x7d' ∧ c ≠ NUL then
          some (.error (Thrown.std_exception "Invalid argument"))
        else
          -- Skip block separator
          from_string_blocks spec (bytes + block.size) rest result

/-- The array `str.c_str()` points to: the characters of the string and the terminating NUL. -/
def c_str (str : String) : List Char := str.data ++ [NUL]

/-- The position of `guid_str` when the loop over the blocks of `Guid::from_string`
starts: the characters of `str.c_str()` after the optional opening brace. -/
def after_brace (str : String) : List Char :=
  match c_str str with
  | c :: rest => if c = '\x7b' then rest else c :: rest
  | [] => []

/-- The function `Guid::from_string`. The result is `none` when the source reads past the
terminating NUL of `str`, `some (.error e)` when it throws `e`, `some (.ok g)` when it
returns `g`. -/
def Guid.from_string (str : String) : Option (Except Thrown Guid) :=
  -- Can optionally begin with {
  let guid_str := after_brace str
  from_string_blocks guid_specification 0 guid_str Guid.zero

/-- Upper-case hexadecimal digit of a value below sixteen. -/
def hex_digit (d : Nat) : Char := "0123456789ABCDEF".data.getD d '0'

/-- Two upper-case hexadecimal digits of a byte, high nibble first. -/
def H (b : Byte) : List Char := [hex_digit (b.val / 16), hex_digit (b.val % 16)]

/-! ## Buffers (jaw_serialization.cpp) -/

/-- The class `OutputBuffer`: `data_` owns the byte vector until `release` takes it away. -/
structure OutputBuffer where
  data_ : Option (List Byte)
deriving DecidableEq

/-- The constructor `OutputBuffer::OutputBuffer()`. -/
def OutputBuffer.new : OutputBuffer := ⟨some []⟩

/-- The method `OutputBuffer::write(source, size)`; `source` holds the `size` bytes copied. -/
def OutputBuffer.write (buffer : OutputBuffer) (source : List Byte) : Except Thrown OutputBuffer :=
  match buffer.data_ with
  | none =>
    .error (Thrown.jaw Errc.operation_not_permitted
      "Can't write to buffer after conversion to zmq::message_t")
  | some data => .ok ⟨some (data ++ source)⟩

/-- The method `OutputBuffer::release`: the vector handed out and the buffer left behind. -/
def OutputBuffer.release (buffer : OutputBuffer) : Option (List Byte) × OutputBuffer :=
  (buffer.data_, ⟨none⟩)

/-- The class `InputBuffer`: the referenced memory, the read position and the size. -/
structure InputBuffer where
  data_ : List Byte
  read_bytes_ : Nat
  max_bytes_ : Nat
deriving DecidableEq

/-- The constructor `InputBuffer::InputBuffer(data, size)`. -/
def InputBuffer.new (data : List Byte) (size : Nat) : InputBuffer := ⟨data, 0, size⟩

/-- The method `InputBuffer::read(size)`, with `std::size_t` of `w` bits: the pointer returned
(as an offset into `data_`) and the buffer with the position moved. -/
def InputBuffer.read (w : Nat) (buffer : InputBuffer) (size : Nat) :
    Except Thrown (Nat × InputBuffer) :=
  if (buffer.read_bytes_ + size) % 2 ^ w > buffer.max_bytes_ then
    .error (Thrown.jaw Errc.result_out_of_range "Trying to access outside limits of buffer")
  else
    .ok (buffer.read_bytes_,
      { buffer with read_bytes_ := (buffer.read_bytes_ + size) % 2 ^ w })

/-- The `size` bytes a pointer returned by `InputBuffer::read` points to. Bytes beyond the
referenced memory are not part of the result. -/
def InputBuffer.peek (buffer : InputBuffer) (current : Nat) (size : Nat) : List Byte :=
  (buffer.data_.drop current).take size

/-! ## Fundamental values -/

/-- Object representation of an integer of `size` bytes: two's complement, little-endian. -/
def int_bytes : (size : Nat) → (value : Int) → List Byte
  | 0, _ => []
  | size + 1, value => Byte.ofInt value :: int_bytes size (value / 256)

/-- The unsigned value held by little-endian bytes. -/
def nat_of_bytes : List Byte → Nat
  | [] => 0
  | b :: bs => b.val + 256 * nat_of_bytes bs

/-- The integer of `size` bytes whose object representation is `bytes`. -/
def int_of_bytes (signed : Bool) (size : Nat) (bytes : List Byte) : Int :=
  let u : Int := nat_of_bytes bytes
  if signed = true ∧ 2 ^ (8 * size - 1) ≤ u then u - 2 ^ (8 * size) else u

/-- The conversion `static_cast<T>(x)` to an integer type of `size` bytes: the value of the
type congruent to `x` modulo `2 ^ (8 * size)`. -/
def static_cast_int (signed : Bool) (size : Nat) (x : Int) : Int :=
  let u : Int := x % 2 ^ (8 * size)
  if signed = true ∧ 2 ^ (8 * size - 1) ≤ u then u - 2 ^ (8 * size) else u

/-- The values of an integer type of `size` bytes. -/
def in_range (signed : Bool) (size : Nat) (x : Int) : Bool :=
  if signed then decide (-(2 ^ (8 * size - 1)) ≤ x ∧ x < 2 ^ (8 * size - 1))
  else decide (0 ≤ x ∧ x < 2 ^ (8 * size))

/-- The overload `write(buffer, value)` for a fundamental type of `size` bytes. -/
def write_fundamental (size : Nat) (buffer : OutputBuffer) (value : Int) :
    Except Thrown OutputBuffer :=
  buffer.write (int_bytes size value)

/-- The overload `read(buffer, value)` for a fundamental integer type of `size` bytes. -/
def read_fundamental (w : Nat) (signed : Bool) (size : Nat) (buffer : InputBuffer) :
    Except Thrown (Int × InputBuffer) :=
  match buffer.read w size with
  | .error e => .error e
  | .ok (current, buffer) => .ok (int_of_bytes signed size (buffer.peek current size), buffer)

/-! ## Wire shapes (jaw_serialization.hpp) -/

mutual
/-- The types the overloads of `write` and `read` accept. -/
inductive Shape where
  /-- A fundamental integer type of `size` bytes. -/
  | int (signed : Bool) (size : Nat)
  /-- An enumeration whose underlying type is an integer type of `size` bytes. -/
  | enum (signed : Bool) (size : Nat)
  | bool
  | guid
  /-- A container `V<T, std::allocator<T>>` or a `std::basic_string<T>`. -/
  | seq (elem : Shape)
  /-- A `std::tuple<Args...>`. -/
  | tuple (members : Pack)
/-- A parameter pack `Args...`. -/
inductive Pack where
  | nil
  | cons (head : Shape) (tail : Pack)
end

mutual
/-- The values of a shape. -/
@[reducible] def Shape.type : Shape → Type
  | .int _ _ => Int
  | .enum _ _ => Int
  | .bool => Bool
  | .guid => Guid
  | .seq elem => List elem.type
  | .tuple members => members.type
/-- The values of a parameter pack. -/
@[reducible] def Pack.type : Pack → Type
  | .nil => Unit
  | .cons head tail => head.type × tail.type
end

mutual
/-- A default-constructed object of a shape. A fundamental object is left without a value by
the source; zero stands for it. -/
def Shape.default : (s : Shape) → s.type
  | .int _ _ => (0 : Int)
  | .enum _ _ => (0 : Int)
  | .bool => false
  | .guid => Guid.zero
  | .seq _ => []
  | .tuple members => Pack.default members
/-- Default-constructed objects for a parameter pack. -/
def Pack.default : (p : Pack) → p.type
  | .nil => ()
  | .cons head tail => (Shape.default head, Pack.default tail)
end

mutual
/-- The value is one its C++ type can hold: integers lie in the range of their type, and an
enumeration value lies in the range of its underlying type and fits 32 bits. -/
def Shape.valid : (s : Shape) → s.type → Bool
  | .int signed size, value => decide (0 < size) && in_range signed size value
  | .enum signed size, value =>
    decide (0 < size) && in_range signed size value && in_range true 4 value
  | .bool, _ => true
  | .guid, _ => true
  | .seq elem, value => List.all value (Shape.valid elem)
  | .tuple members, value => Pack.valid members value
/-- Every member of the pack is valid. -/
def Pack.valid : (p : Pack) → p.type → Bool
  | .nil, _ => true
  | .cons head tail, (value, args) => Shape.valid head value && Pack.valid tail args
end

mutual
/-- Every container inside the value, at any depth, has fewer than `2 ^ 31` elements. -/
def Shape.short : (s : Shape) → s.type → Bool
  | .int _ _, _ => true
  | .enum _ _, _ => true
  | .bool, _ => true
  | .guid, _ => true
  | .seq elem, value => decide (List.length value < 2 ^ 31) && List.all value (Shape.short elem)
  | .tuple members, value => Pack.short members value
/-- Every member of the pack is short. -/
def Pack.short : (p : Pack) → p.type → Bool
  | .nil, _ => true
  | .cons head tail, (value, args) => Shape.short head value && Pack.short tail args
end

/-- The loop of `write_iterable` over the elements. -/
def write_each {α : Type} (write_value : OutputBuffer → α → Except Thrown OutputBuffer) :
    OutputBuffer → List α → Except Thrown OutputBuffer
  | buffer, [] => .ok buffer
  | buffer, value :: rest =>
    match write_value buffer value with
    | .error e => .error e
    | .ok buffer => write_each write_value buffer rest

/-- The function `write_iterable`, given the overload of `write` for the element type. -/
def write_iterable {α : Type} (write_value : OutputBuffer → α → Except Thrown OutputBuffer)
    (buffer : OutputBuffer) (iterable : List α) : Except Thrown OutputBuffer :=
  -- First write the iterable length as 32bit integer
  match write_fundamental 4 buffer (static_cast_int true 4 iterable.length) with
  | .error e => .error e
  | .ok buffer => write_each write_value buffer iterable

mutual
/-- The overloads of `write(buffer, value)`, selected by the type of `value`. -/
def write : (s : Shape) → OutputBuffer → s.type → Except Thrown OutputBuffer
  | .int _ size, buffer, value => write_fundamental size buffer value
  | .enum _ _, buffer, value => write_fundamental 4 buffer (static_cast_int true 4 value)
  | .bool, buffer, value => write_fundamental 4 buffer (if (value : Bool) then 1 else 0)
  | .guid, buffer, value => buffer.write (Guid.bytes_ value)
  | .seq elem, buffer, value => write_iterable (write elem) buffer value
  | .tuple members, buffer, value => write_tuple members buffer value
/-- The function `write_tuple`, which expands to the variadic `write(buffer, value, args...)`:
the first value is written, then the rest of the pack. -/
def write_tuple : (p : Pack) → OutputBuffer → p.type → Except Thrown OutputBuffer
  | .nil, buffer, _ => .ok buffer
  | .cons head tail, buffer, (value, args) =>
    match write head buffer value with
    | .error e => .error e
    | .ok buffer => write_tuple tail buffer args
end

/-- The loop of `read_iterable`: `count` elements are read and pushed back. -/
def read_each {α : Type} (read_value : InputBuffer → Except Thrown (α × InputBuffer)) :
    (count : Nat) → InputBuffer → List α → Except Thrown (List α × InputBuffer)
  | 0, buffer, iterable => .ok (iterable, buffer)
  | count + 1, buffer, iterable =>
    match read_value buffer with
    | .error e => .error e
    | .ok (value, buffer) => read_each read_value count buffer (iterable ++ [value])

/-- The function `read_iterable`, given the overload of `read` for the element type applied to
a default-constructed element. A negative length converts to a `std::size_t` above the
capacity of every container, so `reserve` throws (`std::length_error` or `std::bad_alloc`);
for other lengths the allocation is taken to succeed. -/
def read_iterable {α : Type} (w : Nat)
    (read_value : InputBuffer → Except Thrown (α × InputBuffer))
    (buffer : InputBuffer) (iterable : List α) : Except Thrown (List α × InputBuffer) :=
  match read_fundamental w true 4 buffer with
  | .error e => .error e
  | .ok (length, buffer) =>
    if length < 0 then .error (Thrown.std_exception "reserve")
    else read_each read_value length.toNat buffer iterable

mutual
/-- The overloads of `read(buffer, value)`, selected by the type of `value`; the last argument
is the object `value` refers to before the call. -/
def read (w : Nat) : (s : Shape) → InputBuffer → s.type → Except Thrown (s.type × InputBuffer)
  | .int signed size, buffer, _ => read_fundamental w signed size buffer
  | .enum signed size, buffer, _ =>
    match read_fundamental w true 4 buffer with
    | .error e => .error e
    | .ok (as_integer, buffer) => .ok (static_cast_int signed size as_integer, buffer)
  | .bool, buffer, _ =>
    match read_fundamental w true 4 buffer with
    | .error e => .error e
    | .ok (as_integer, buffer) => .ok (decide (as_integer ≠ 0), buffer)
  | .guid, buffer, _ =>
    match buffer.read w 16 with
    | .error e => .error e
    | .ok (current, buffer) => .ok (Guid.ofBytes (buffer.peek current 16), buffer)
  | .seq elem, buffer, value =>
    read_iterable w (fun buffer => read w elem buffer (Shape.default elem)) buffer value
  | .tuple members, buffer, value => read_tuple w members buffer value
/-- The function `read_tuple`, which expands to the variadic `read(buffer, value, args...)`. -/
def read_tuple (w : Nat) : (p : Pack) → InputBuffer → p.type → Except Thrown (p.type × InputBuffer)
  | .nil, buffer, value => .ok (value, buffer)
  | .cons head tail, buffer, (value, args) =>
    match read w head buffer value with
    | .error e => .error e
    | .ok (value, buffer) =>
      match read_tuple w tail buffer args with
      | .error e => .error e
      | .ok (args, buffer) => .ok ((value, args), buffer)
end

/-- The concatenation of the images of the elements of a container. -/
def wire_each {α : Type} (image : α → List Byte) : List α → List Byte
  | [] => []
  | value :: rest => image value ++ wire_each image rest

mutual
/-- The wire image of a value, shape by shape, as a function of the value alone. -/
def wire : (s : Shape) → s.type → List Byte
  | .int _ size, value => int_bytes size value
  | .enum _ _, value => int_bytes 4 (static_cast_int true 4 value)
  | .bool, value => int_bytes 4 (if (value : Bool) then 1 else 0)
  | .guid, value => Guid.bytes_ value
  | .seq elem, value =>
    int_bytes 4 (static_cast_int true 4 (List.length value)) ++ wire_each (wire elem) value
  | .tuple members, value => wire_pack members value
/-- The wire image of the values of a pack: the images of the members in declared order. -/
def wire_pack : (p : Pack) → p.type → List Byte
  | .nil, _ => []
  | .cons head tail, (value, args) => wire head value ++ wire_pack tail args
end

/-- The bytes `write` appends for a value: what writing it into a fresh buffer produces. -/
def encoded (s : Shape) (value : s.type) : List Byte :=
  match write s OutputBuffer.new value with
  | .ok ⟨some bytes⟩ => bytes
  | _ => []

/-- The concatenation, in declared order, of the encodings of the members of a pack. -/
def concat_encoded : (p : Pack) → p.type → List Byte
  | .nil, _ => []
  | .cons head tail, (value, args) => encoded head value ++ concat_encoded tail args

/-! ## Server (jaw_server.hpp) -/

/-- The structure `Server::Handle`. The pointer `value` is a number, zero for `nullptr`. The
closure `publish` is either empty or the lambda of `process_request` that publishes on the
channel it captured; it is represented by that channel. -/
structure Handle where
  value : Nat
  publish : Option String
deriving DecidableEq, Repr

/-- The constructor `Handle::Handle()`. -/
def Handle.new : Handle := ⟨0, none⟩

/-- What calling a task procedure leaves behind: the handle it was given by reference, the
state of everything else it acts on (the device backend), and the reply it returned or the
exception it threw. -/
structure Executed (σ : Type) where
  handle : Handle
  world : σ
  reply : Except Thrown OutputBuffer

/-- The type `Procedure`: `std::function<OutputBuffer(Handle&, InputBuffer)>`, acting on a
state `σ` outside the server. -/
abbrev Procedure (σ : Type) := Handle → InputBuffer → σ → Executed σ

/-- The structure `Config::Task`; a `Command` is an enumeration over `int`. -/
structure Task (σ : Type) where
  cmd : Int
  execute : Procedure σ

/-- The structure `Server::Config`. -/
structure Config (σ : Type) where
  task_create : Task σ
  task_destroy : Task σ
  task_list : List (Task σ)

/-- The members of `Server` that `process_request` uses; `handles_` is the
`std::map<Guid, Handle>` as the list of its entries, at most one for a key. -/
structure Server where
  callback_port_ : Int
  handles_ : List (Guid × Handle)
deriving DecidableEq

/-- The lookup `handles_.find(key)`. -/
def map_find : List (Guid × Handle) → Guid → Option Handle
  | [], _ => none
  | (k, h) :: m, key => if k = key then some h else map_find m key

/-- The map after `handles_[key]`: an absent key gets a default-constructed handle. -/
def map_index (m : List (Guid × Handle)) (key : Guid) : List (Guid × Handle) :=
  match map_find m key with
  | some _ => m
  | none => m ++ [(key, Handle.new)]

/-- The map after an assignment through the reference `handles_[key]` returned. -/
def map_assign : List (Guid × Handle) → Guid → Handle → List (Guid × Handle)
  | [], _, _ => []
  | (k, h) :: m, key, handle =>
    if k = key then (k, handle) :: m else (k, h) :: map_assign m key handle

/-- The map after `handles_.erase(key)`. -/
def map_erase : List (Guid × Handle) → Guid → List (Guid × Handle)
  | [], _ => []
  | (k, h) :: m, key => if k = key then map_erase m key else (k, h) :: map_erase m key

/-- Which task procedure a request made `process_request` call. -/
inductive Invoked where
  | ordinary (index : Nat)
  | create
  | destroy
deriving DecidableEq, Repr

/-- The loop of `process_request` over `config().task_list`: the first task whose command is
`cmd`, with its position. -/
def first_task {σ : Type} (cmd : Int) : List (Task σ) → Nat → Option (Nat × Task σ)
  | [], _ => none
  | task :: rest, index =>
    if cmd = task.cmd then some (index, task) else first_task cmd rest (index + 1)

/-- The state a run of the `try` block of `process_request` ends in. The result is
`.ok (some reply)` when the block returned `reply`, `.ok none` when control left the block at
its end, and `.error e` when `e` was thrown inside it. -/
structure Attempt (σ : Type) where
  server : Server
  world : σ
  invoked : List Invoked
  result : Except Thrown (Option OutputBuffer)

/-- The statements `OutputBuffer reply; write(reply, code); return reply;`. -/
def reply_code (code : Errc) : Except Thrown OutputBuffer :=
  write (Shape.enum true 4) OutputBuffer.new code.value

/-- The shapes of `identifier` and `cmd`, which `process_request` reads first. -/
def request_head : Pack := Pack.cons Shape.guid (Pack.cons (Shape.enum true 4) Pack.nil)

/-- The `try` block of `Server::process_request`. -/
def process_request_try {σ : Type} (w : Nat) (cfg : Config σ) (srv : Server)
    (request : InputBuffer) (world : σ) : Attempt σ :=
  -- Read robot identifier and command to execute.
  match read_tuple w request_head request (Pack.default request_head) with
  | .error e => ⟨srv, world, [], .error e⟩
  | .ok ((identifier, cmd, _), request) =>
    -- Look for robots registered by this server.
    let handles := map_index srv.handles_ identifier
    let handle := (map_find handles identifier).getD Handle.new
    let srv : Server := { srv with handles_ := handles }
    -- Make sure that specified robot was already created or is being created now.
    if handle.value = 0 ∧ cmd ≠ cfg.task_create.cmd then
      ⟨srv, world, [], (reply_code Errc.operation_not_supported).map some⟩
    else
      -- First try ordinary commands as they should be more frequent.
      match first_task cmd cfg.task_list 0 with
      | some (index, task) =>
        let run := task.execute handle request world
        ⟨{ srv with handles_ := map_assign handles identifier run.handle }, run.world,
          [Invoked.ordinary index], run.reply.map some⟩
      | none =>
        -- Now try create/destroy commands:
        if cmd = cfg.task_create.cmd then
          -- This instance was already initialized.
          if handle.value ≠ 0 then
            ⟨srv, world, [], (reply_code Errc.connection_already_in_progress).map some⟩
          else
            let run := cfg.task_create.execute handle request world
            match run.reply with
            | .error e =>
              ⟨{ srv with handles_ := map_assign handles identifier run.handle }, run.world,
                [Invoked.create], .error e⟩
            | .ok reply =>
              if run.handle.value = 0 then
                -- If handle was not properly initialized, remove it
                ⟨{ srv with handles_ := map_erase handles identifier }, run.world,
                  [Invoked.create], .ok (some reply)⟩
              else
                -- Otherwise, create publishing method and append callback port to reply.
                let id_str := identifier.to_string
                let handle : Handle := { run.handle with publish := some id_str }
                let srv : Server := { srv with handles_ := map_assign handles identifier handle }
                ⟨srv, run.world, [Invoked.create],
                  (write (Shape.int true 4) reply srv.callback_port_).map some⟩
        else if cmd = cfg.task_destroy.cmd then
          let run := cfg.task_destroy.execute handle request world
          match run.reply with
          | .error e =>
            ⟨{ srv with handles_ := map_assign handles identifier run.handle }, run.world,
              [Invoked.destroy], .error e⟩
          | .ok reply =>
            ⟨{ srv with handles_ := map_erase handles identifier }, run.world,
              [Invoked.destroy], .ok (some reply)⟩
        else
          ⟨srv, world, [], .ok none⟩

/-- What a call of `process_request` leaves behind: the server, the state outside it, the task
procedures called, and the reply returned, or the exception that left the function. -/
structure Processed (σ : Type) where
  server : Server
  world : σ
  invoked : List Invoked
  reply : Except Thrown OutputBuffer

/-- The method `Server::process_request`, with `std::size_t` of `w` bits. -/
def process_request {σ : Type} (w : Nat) (cfg : Config σ) (srv : Server)
    (request : InputBuffer) (world : σ) : Processed σ :=
  let attempt := process_request_try w cfg srv request world
  match attempt.result with
  | .ok (some reply) => ⟨attempt.server, attempt.world, attempt.invoked, .ok reply⟩
  | .ok none =>
    -- Received invalid command.
    ⟨attempt.server, attempt.world, attempt.invoked, reply_code Errc.operation_not_supported⟩
  | .error Thrown.foreign =>
    ⟨attempt.server, attempt.world, attempt.invoked, .error Thrown.foreign⟩
  | .error _ =>
    -- catch (const std::exception& e): something went terribly wrong.
    ⟨attempt.server, attempt.world, attempt.invoked, reply_code Errc.state_not_recoverable⟩

/-- The server dispatch table as a function: the task procedure a request with command `cmd`
reaches when `handle` is the entry of its identifier, with the name it has in the trace. -/
def matched_task {σ : Type} (cfg : Config σ) (handle : Handle) (cmd : Int) :
    Option (Invoked × Task σ) :=
  if handle.value = 0 ∧ cmd ≠ cfg.task_create.cmd then none
  else
    match first_task cmd cfg.task_list 0 with
    | some (index, task) => some (Invoked.ordinary index, task)
    | none =>
      if cmd = cfg.task_create.cmd then
        if handle.value ≠ 0 then none else some (Invoked.create, cfg.task_create)
      else if cmd = cfg.task_destroy.cmd then some (Invoked.destroy, cfg.task_destroy)
      else none

/-! ## Fault barrier (jaw_protected_call.cpp, jaw_socket.hpp) -/

/-- The exception `TimeoutException()`: a `Jaw::Exception` with the code timed_out. -/
def TimeoutException : Thrown := Thrown.jaw Errc.timed_out ""

/-- The exception `ConnectionException(detail)`: a `Jaw::Exception` with the code
not_connected. -/
def ConnectionException (detail : String) : Thrown := Thrown.jaw Errc.not_connected detail

/-- The function `protected_call(method)`; `method` is given by what calling it does: it
returns an integer or throws. -/
def protected_call (method : Except Thrown Int) : Int :=
  match method with
  | .ok result => result
  -- catch (const std::system_error& e): e.code().value()
  | .error (Thrown.jaw code _) => code.value
  | .error (Thrown.system_error value _) => value
  -- catch (const std::exception& e)
  | .error (Thrown.std_exception _) => Errc.state_not_recoverable.value
  -- catch (...)
  | .error Thrown.foreign => Errc.state_not_recoverable.value

/-! ## Client (jaw_client.hpp) -/

/-- The lookup `callbacks_.find(id)` in the `std::map<Command, Callback>` of the monitor, kept
as the list of its entries; `κ` is the type of callable callbacks. -/
def callbacks_find {κ : Type} : List (Int × κ) → Int → Option κ
  | [], _ => none
  | (k, cb) :: m, id => if k = id then some cb else callbacks_find m id

/-- The map after `callbacks_.erase(id)`. -/
def callbacks_erase {κ : Type} : List (Int × κ) → Int → List (Int × κ)
  | [], _ => []
  | (k, cb) :: m, id => if k = id then callbacks_erase m id else (k, cb) :: callbacks_erase m id

/-- The map after `callbacks_[id] = callback`. -/
def callbacks_assign {κ : Type} : List (Int × κ) → Int → κ → List (Int × κ)
  | [], id, callback => [(id, callback)]
  | (k, cb) :: m, id, callback =>
    if k = id then (k, callback) :: m else (k, cb) :: callbacks_assign m id callback

/-- The class `Client::CallbackMonitor`, reduced to its map of callbacks; the subscriber
socket, the mutex and the thread are not represented. -/
structure CallbackMonitor (κ : Type) where
  callbacks_ : List (Int × κ)
deriving DecidableEq

/-- The method `CallbackMonitor::set_callback(id, callback)`: the code returned and the monitor
afterwards. A `Callback` is `none` when the `std::function` is empty. Taking the lock and
inserting into the map are taken not to throw. -/
def CallbackMonitor.set_callback {κ : Type} (monitor : CallbackMonitor κ) (id : Int)
    (callback : Option κ) : Int × CallbackMonitor κ :=
  match callback with
  | some callable => (protected_call (.ok 0), ⟨callbacks_assign monitor.callbacks_ id callable⟩)
  | none => (protected_call (.ok 0), ⟨callbacks_erase monitor.callbacks_ id⟩)

/-- The data members of `Client` other than the socket; `callback_port_` is an
`unsigned short`. -/
structure Client (κ : Type) where
  identifier_ : Guid
  callback_port_ : Int
  callback_monitor_ : Option (CallbackMonitor κ)
deriving DecidableEq

/-- What `socket_.request(message, timeout)` does with a message: it returns the reply buffer
or throws (a `TimeoutException`, a `ConnectionException`). -/
abbrev Transport := OutputBuffer → Except Thrown InputBuffer

/-- The arguments of the variadic `write(request, client->identifier_, cmd, input)`. -/
def request_pack (input : Pack) : Pack :=
  Pack.cons Shape.guid (Pack.cons (Shape.enum true 4) (Pack.cons (Shape.tuple input) Pack.nil))

/-- What a call of `Client::request` leaves behind: the code returned; the output parameters
(`none` when decoding them threw part-way, so that some hold new values); the messages handed
to the socket; and the reply buffer as the call left it, if one was received. -/
structure Requested (output : Pack) where
  code : Int
  output : Option output.type
  sent : List OutputBuffer
  reply : Option InputBuffer

/-- The function `Client::request(handle, cmd, timeout, input, output...)`, with `std::size_t`
of `w` bits; `handle` is `none` for a null pointer. -/
def Client.request {κ : Type} (w : Nat) (handle : Option (Client κ)) (cmd : Int)
    (transport : Transport) (ip : Pack) (input : ip.type) (op : Pack) (output : op.type) :
    Requested op :=
  match handle with
  | none => ⟨Errc.invalid_argument.value, some output, [], none⟩
  | some client =>
    -- Write request message
    match write_tuple (request_pack ip) OutputBuffer.new (client.identifier_, cmd, input, ()) with
    | .error e => ⟨protected_call (.error e), some output, [], none⟩
    | .ok request =>
      -- Perform request and parse reply
      match transport request with
      | .error e => ⟨protected_call (.error e), some output, [request], none⟩
      | .ok reply =>
        match read_fundamental w true 4 reply with
        | .error e => ⟨protected_call (.error e), some output, [request], some reply⟩
        | .ok (error, reply) =>
          -- Only read output if request was successful.
          if error = 0 then
            match read_tuple w op reply output with
            | .error e => ⟨protected_call (.error e), none, [request], some reply⟩
            | .ok (output, reply) =>
              ⟨protected_call (.ok error), some output, [request], some reply⟩
          else ⟨protected_call (.ok error), some output, [request], some reply⟩

/-- What a call of `Client::create` leaves behind: the code returned, the client that stays
alive (`none` when none was built or when it was destroyed again), the messages handed to the
socket and the reply buffer as the call left it. -/
structure Created (κ : Type) where
  code : Int
  client : Option (Client κ)
  sent : List OutputBuffer
  reply : Option InputBuffer

/-- The function `Client::create(handle, cmd, timeout, address, input)`. The flags tell whether
`handle` and `address` are non-null; `built` is what `new Client(address)` does: it returns the
new client or throws. The result is `none` when the source goes on without a client
(undefined behaviour), which takes a constructor that throws an exception whose code is
zero. -/
def Client.create {κ : Type} (w : Nat) (handle_given address_given : Bool) (cmd : Int)
    (transport : Transport) (built : Except Thrown (Client κ)) (ip : Pack) (input : ip.type) :
    Option (Created κ) :=
  if !handle_given || !address_given then some ⟨Errc.invalid_argument.value, none, [], none⟩
  else
    -- Create connection with server
    match built with
    | .error e =>
      if protected_call (.error e) ≠ 0 then some ⟨protected_call (.error e), none, [], none⟩
      else none
    | .ok client =>
      -- Create robot in remote server obtaining the port for callbacks.
      let requested := Client.request w (some client) cmd transport ip input
        (Pack.cons (Shape.int false 2) Pack.nil) (client.callback_port_, ())
      -- If successful, release client as it shold be destroyed by neato_destroy now.
      if requested.code = 0 then
        match requested.output with
        | some (port, _) =>
          some ⟨requested.code, some { client with callback_port_ := port }, requested.sent,
            requested.reply⟩
        | none => some ⟨requested.code, some client, requested.sent, requested.reply⟩
      else some ⟨requested.code, none, requested.sent, requested.reply⟩

/-- What a call of `Client::destroy` leaves behind: the code returned, the messages handed to
the socket, and whether `delete client` was executed. -/
structure Destroyed where
  code : Int
  sent : List OutputBuffer
  deleted : Bool
deriving DecidableEq

/-- The function `Client::destroy(handle, cmd, timeout)`; `cleanup` is what `delete client`
does: it returns or throws. -/
def Client.destroy {κ : Type} (w : Nat) (handle : Option (Client κ)) (cmd : Int)
    (transport : Transport) (cleanup : Except Thrown Unit) : Destroyed :=
  match handle with
  | none => ⟨Errc.invalid_argument.value, [], false⟩
  | some client =>
    let requested := Client.request w (some client) cmd transport Pack.nil () Pack.nil ()
    -- Even if we fail to perform the request to destroy, delete client to free resources.
    let error_del := protected_call (cleanup.map (fun _ => 0))
    -- The remote error has higher importance.
    if requested.code ≠ 0 then ⟨requested.code, requested.sent, true⟩
    else ⟨error_del, requested.sent, true⟩

/-- The method `Client::create_callback_monitor`: the code returned and the client afterwards;
`built` is what constructing the `CallbackMonitor` (its subscriber socket and its thread)
does: it returns or throws. -/
def Client.create_callback_monitor {κ : Type} (client : Client κ) (built : Except Thrown Unit) :
    Int × Client κ :=
  -- Do nothing if already created.
  match client.callback_monitor_ with
  | some _ => (0, client)
  | none =>
    match built with
    | .ok _ => (protected_call (.ok 0), { client with callback_monitor_ := some ⟨[]⟩ })
    | .error e => (protected_call (.error e), client)

/-- What a call of `Client::set_callback` leaves behind: the code returned, the client
afterwards (`none` for a null handle), and the messages handed to the socket. -/
structure CallbackSet (κ : Type) where
  code : Int
  client : Option (Client κ)
  sent : List OutputBuffer

/-- The function `Client::set_callback(handle, cmd, timeout, callback)`. The result is `none`
when the source dereferences a null `callback_monitor_` (undefined behaviour), which takes a
monitor construction that throws an exception whose code is zero. -/
def Client.set_callback {κ : Type} (w : Nat) (handle : Option (Client κ)) (cmd : Int)
    (transport : Transport) (built : Except Thrown Unit) (callback : Option κ) :
    Option (CallbackSet κ) :=
  match handle with
  | none => some ⟨Errc.invalid_argument.value, none, []⟩
  | some client =>
    -- Make sure Callback Monitor is created.
    let made := client.create_callback_monitor built
    if made.1 ≠ 0 then some ⟨made.1, some made.2, []⟩
    else
      -- Request server to enable or disable this callback ID notification.
      let requested := Client.request w (some made.2) cmd transport
        (Pack.cons Shape.bool Pack.nil) (callback.isSome, ()) Pack.nil ()
      -- Update monitor if callback was succesfully registered with server or if
      -- we are trying to disable the callback.
      if requested.code = 0 ∨ callback.isNone = true then
        match made.2.callback_monitor_ with
        | none => none
        | some monitor =>
          let updated := monitor.set_callback cmd callback
          some ⟨updated.1, some { made.2 with callback_monitor_ := some updated.2 },
            requested.sent⟩
      else some ⟨requested.code, some made.2, requested.sent⟩

/-! ## Fixed arrays (jaw_serialization.hpp, continuous arrays) -/

/-- The object representation of an array of integers of `size` bytes each: the
representations of the elements, in order. -/
def array_bytes (size : Nat) : List Int → List Byte
  | [] => []
  | x :: rest => int_bytes size x ++ array_bytes size rest

/-- The elements of the array of `count` integers of `size` bytes whose object representation
is `bytes` (the destination of the `memcpy`). -/
def array_of_bytes (signed : Bool) (size : Nat) : (count : Nat) → List Byte → List Int
  | 0, _ => []
  | count + 1, bytes =>
    int_of_bytes signed size (bytes.take size) :: array_of_bytes signed size count (bytes.drop size)

/-- The overload `write(buffer, value)` for an array `T value[N]` of a fundamental integer type
of `size` bytes. `N`, the length of `value`, is a template argument of type `std::int32_t`,
so the overload exists for arrays of fewer than `2 ^ 31` elements only. -/
def write_array (size : Nat) (buffer : OutputBuffer) (value : List Int) :
    Except Thrown OutputBuffer :=
  -- First write the array length as 32bit integer
  match write_fundamental 4 buffer value.length with
  | .error e => .error e
  | .ok buffer =>
    -- Write continuous raw data
    if value.length > 0 then buffer.write (array_bytes size value) else .ok buffer

/-- The overload `read(buffer, value)` for an array `T value[N]` of a fundamental integer type
of `size` bytes; `N` is a `std::size_t`, and `length == N` compares the 32-bit `length`
converted to `std::size_t`. The result is the content of `value` after the call. -/
def read_array (w : Nat) (signed : Bool) (size N : Nat) (buffer : InputBuffer) :
    Except Thrown (List Int × InputBuffer) :=
  -- First read the array length as 32bit integer
  match read_fundamental w true 4 buffer with
  | .error e => .error e
  | .ok (length, buffer) =>
    -- Read continuous raw data
    if length % 2 ^ w = N then
      -- Move reader without copying any data.
      match buffer.read w (size * N) with
      | .error e => .error e
      | .ok (tmp, buffer) =>
        -- Copy the data to the array.
        .ok (array_of_bytes signed size N (buffer.peek tmp (size * N)), buffer)
    else
      .error (Thrown.jaw Errc.bad_message "Received array with unexpected size")

/-! ## Output buffer in use -/

/-- The buffer after the calls `buffer.write(source, size)` for each source of a list, in
order; the first call that throws ends the sequence. -/
def OutputBuffer.write_all : OutputBuffer → List (List Byte) → Except Thrown OutputBuffer
  | buffer, [] => .ok buffer
  | buffer, source :: rest =>
    match buffer.write source with
    | .error e => .error e
    | .ok buffer => OutputBuffer.write_all buffer rest

/-! ## Socket address (jaw_socket_impl.cpp) -/

/-- The socket types of ZeroMQ the framework uses: requester, replier, subscriber, publisher. -/
inductive ZmqType where
  | ZMQ_REQ
  | ZMQ_REP
  | ZMQ_SUB
  | ZMQ_PUB
deriving DecidableEq, Repr

/-- Whether the characters of `pattern` are the first characters of `str`. -/
def starts_with : (str pattern : List Char) → Bool
  | _, [] => true
  | [], _ :: _ => false
  | c :: str, p :: pattern => c = p && starts_with str pattern

/-- The first position, counted from `index` at the head of `str`, where `pattern` occurs. -/
def find_first : (str pattern : List Char) → (index : Nat) → Option Nat
  | [], pattern, index => if pattern = [] then some index else none
  | c :: str, pattern, index =>
    if starts_with (c :: str) pattern then some index else find_first str pattern (index + 1)

/-- The search `str.find(pattern, pos)` of `std::string`; `none` is `std::string::npos`. The
overload that searches a character is the search for the string of that character. -/
def string_find (str pattern : String) (pos : Nat) : Option Nat :=
  if pos > str.length then none else find_first (str.data.drop pos) pattern.data pos

/-- The constructor `Socket::Impl::Impl(address, zmq_type)`: the address it stores in
`zmq_address_`, or the exception it throws. -/
def Socket.Impl.new (address : String) (zmq_type : ZmqType) : Except Thrown String :=
  let found := string_find address "://" 0
  let (zmq_address_, start) :=
    match found with
    | none => ("tcp://" ++ address, 6) -- skip protocol declarion
    | some found => (address, found + 4)
  if string_find zmq_address_ ":" start = none then
    if zmq_type = ZmqType.ZMQ_REP ∨ zmq_type = ZmqType.ZMQ_PUB then
      .ok (zmq_address_ ++ ":*")
    else
      .error (Thrown.jaw Errc.invalid_argument "Missing port in address")
  else
    .ok zmq_address_

/-! ## Camera protocol (picam_defines.h, picam_protocol.hpp) -/

/-- The structure `picam_image_t`. The four `unsigned int` members are integers; the pointer
`data` is an offset into the memory it points into. -/
structure picam_image_t where
  format : Int
  width : Int
  height : Int
  bytes_per_line : Int
  data_size : Int
  data : Int
deriving DecidableEq, Repr

/-- A finite `float` (IEEE 754 binary32), given as a fraction `num / den` it equals (`den` is
positive; every finite `float` is a fraction of integers). -/
structure float where
  num : Int
  den : Nat
deriving DecidableEq, Repr

/-- The structure `picam_roi_t`. -/
structure picam_roi_t where
  x : float
  y : float
  width : float
  height : float
deriving DecidableEq, Repr

/-- Whether the fraction `num / den` is below `2 ^ k`. -/
def below_pow (num den : Nat) (k : Int) : Bool :=
  if 0 ≤ k then decide (num < den * 2 ^ k.toNat) else decide (num * 2 ^ (-k).toNat < den)

/-- The exponent of the last place of the 24-bit significand of the `float` nearest to
`num / den`: the least `e`, from the exponent -149 of the smallest subnormal on, with
`num / den < 2 ^ (e + 24)`; `fuel` bounds the search. -/
def last_place (num den : Nat) : (fuel : Nat) → (e : Int) → Int
  | 0, e => e
  | fuel + 1, e => if below_pow num den (e + 24) then e else last_place num den fuel (e + 1)

/-- The integer nearest to `num / den`, the even one of the two when it is halfway. -/
def nearest_even (num den : Nat) : Nat :=
  if 2 * (num % den) < den then num / den
  else if den < 2 * (num % den) then num / den + 1
  else num / den + (num / den) % 2

/-- The `float` a real result `num / den` is rounded to: the nearest one, the one with an even
significand when it is halfway (the rounding of the conversion from an integer and of the
multiplication). A result beyond the largest `float`, which the source rounds to infinity, is
given a finite value beyond the range of `int`. -/
def nearest_float (num : Int) (den : Nat) : float :=
  let e := last_place num.natAbs den 300 (-149)
  if 0 ≤ e then
    ⟨num.sign * (nearest_even num.natAbs (den * 2 ^ e.toNat) * 2 ^ e.toNat : Nat), 1⟩
  else
    ⟨num.sign * (nearest_even (num.natAbs * 2 ^ (-e).toNat) den : Nat), 2 ^ (-e).toNat⟩

/-- The value of the expression `std::round(n * f)` for an unsigned integer `n` and a `float`
`f`: `n` is converted to `float`, the product is computed in `float`, and `std::round` takes
the nearest integer, halfway cases away from zero. -/
def round_product (n : Int) (f : float) : Int :=
  let converted := nearest_float n 1
  let product := nearest_float (converted.num * f.num) (converted.den * f.den)
  if 0 ≤ product.num then (2 * product.num + product.den) / (2 * product.den)
  else -((2 * (-product.num) + product.den) / (2 * product.den))

/-- An `int` whose mathematical value is `x`, as the result of `static_cast<int>` applied to a
`float` or of an operation on `int`: `x` when an `int` can hold it; the behaviour is undefined
otherwise. -/
def as_int (x : Int) : Option Int := if in_range true 4 x = true then some x else none

/-- The `size` bytes at `pointer` in `memory`, when that region lies inside `memory`; a copy
from a region that does not is undefined. -/
def region (memory : List Byte) (pointer size : Int) : Option (List Byte) :=
  if 0 ≤ pointer ∧ 0 ≤ size ∧ pointer + size ≤ memory.length then
    some ((memory.drop pointer.toNat).take size.toNat)
  else none

/-- The shapes of the image meta-data written by the plain overload: the format, an
enumeration, and four `unsigned int`. -/
def image_head : Pack :=
  Pack.cons (Shape.enum false 4) (Pack.cons (Shape.int false 4) (Pack.cons (Shape.int false 4)
    (Pack.cons (Shape.int false 4) (Pack.cons (Shape.int false 4) Pack.nil))))

/-- The shapes of the image meta-data written by the cropping overload: the format and four
`int`. -/
def cropped_head : Pack :=
  Pack.cons (Shape.enum false 4) (Pack.cons (Shape.int true 4) (Pack.cons (Shape.int true 4)
    (Pack.cons (Shape.int true 4) (Pack.cons (Shape.int true 4) Pack.nil))))

/-- The overload `write(buffer, value, args...)` for a `picam_image_t`; `memory` is what
`value.data` points into. The result is `none` where the behaviour is undefined. -/
def write_image (memory : List Byte) (buffer : OutputBuffer) (value : picam_image_t)
    (p : Pack) (args : p.type) : Option (Except Thrown OutputBuffer) :=
  -- Write image meta-data
  match write_tuple image_head buffer
    (value.format, value.width, value.height, value.bytes_per_line, value.data_size, ()) with
  | .error e => some (.error e)
  | .ok buffer =>
    -- Write the image bufer
    match region memory value.data value.data_size with
    | none => none
    | some bytes =>
      match buffer.write bytes with
      | .error e => some (.error e)
      | .ok buffer => some (write_tuple p buffer args)

/-- The loop of the cropping overload: `count` rows from row `j` on. -/
def write_rows (memory : List Byte) (value : picam_image_t)
    (bytes_per_pixel new_x new_bytes_per_line : Int) :
    (count : Nat) → (j : Int) → OutputBuffer → Option (Except Thrown OutputBuffer)
  | 0, _, buffer => some (.ok buffer)
  | count + 1, j, buffer =>
    -- the offset is computed in `unsigned int`
    match region memory (value.data + bytes_per_pixel * (new_x + j * value.width) % 2 ^ 32)
      new_bytes_per_line with
    | none => none
    | some bytes =>
      match buffer.write bytes with
      | .error e => some (.error e)
      | .ok buffer =>
        write_rows memory value bytes_per_pixel new_x new_bytes_per_line count (j + 1) buffer

/-- The overload `write(buffer, value, crop, args...)` for a `picam_image_t` and a
`picam_roi_t`; `memory` is what `value.data` points into. The result is `none` where the
behaviour is undefined (a conversion or a product that an `int` cannot hold, a division by
zero, a row outside `memory`). -/
def write_image_crop (memory : List Byte) (buffer : OutputBuffer) (value : picam_image_t)
    (crop : picam_roi_t) (p : Pack) (args : p.type) : Option (Except Thrown OutputBuffer) := do
  let new_width ← as_int (round_product value.width crop.width)
  let new_height ← as_int (round_product value.width crop.width)
  let bytes_per_pixel ←
    if value.width = 0 then none
    else some (static_cast_int true 4 (value.bytes_per_line / value.width))
  let new_bytes_per_line ← as_int (bytes_per_pixel * new_width)
  let new_data_size ← as_int (new_bytes_per_line * new_height)
  let new_x ← as_int (round_product value.width crop.x)
  let new_y ← as_int (round_product value.height crop.y)
  -- Write image meta-data
  match write_tuple cropped_head buffer
    (value.format, new_width, new_height, new_bytes_per_line, new_data_size, ()) with
  | .error e => some (.error e)
  | .ok buffer =>
    -- Write the image bufer
    match write_rows memory value bytes_per_pixel new_x new_bytes_per_line new_height.toNat
      new_y buffer with
    | none => none
    | some (.error e) => some (.error e)
    | some (.ok buffer) => some (write_tuple p buffer args)

/-- The overload `read(buffer, value, args...)` for a `picam_image_t`: the image, whose `data`
points into the memory of the input buffer, the other values read, and the buffer. -/
def read_image (w : Nat) (buffer : InputBuffer) (value : picam_image_t) (p : Pack)
    (args : p.type) : Except Thrown (picam_image_t × p.type × InputBuffer) :=
  -- Read image meta-data
  match read_tuple w image_head buffer
    (value.format, value.width, value.height, value.bytes_per_line, value.data_size, ()) with
  | .error e => .error e
  | .ok ((format, width, height, bytes_per_line, data_size, _), buffer) =>
    -- Get the memory position of the buffer inside the InputBuffer.
    match buffer.read w 0 with
    | .error e => .error e
    | .ok (current, buffer) =>
      match read_tuple w p buffer args with
      | .error e => .error e
      | .ok (args, buffer) =>
        .ok (⟨format, width, height, bytes_per_line, data_size, current⟩, args, buffer)

/-! ## Sample values -/

/-- A sample pack: a vector of 16-bit integers, a boolean, an identifier and an enumeration. -/
def sample_pack : Pack :=
  Pack.cons (Shape.seq (Shape.int true 2)) (Pack.cons Shape.bool
    (Pack.cons Shape.guid (Pack.cons (Shape.enum true 4) Pack.nil)))

/-- Sample values for the sample pack. -/
def sample_args : sample_pack.type := ([1, -2, 3], true, Guid.ofBytes [1, 2, 3], 95, ())

/-- The pack of a vector of octets followed by a boolean. -/
def octets_then_bool : Pack :=
  Pack.cons (Shape.seq (Shape.int false 1)) (Pack.cons Shape.bool Pack.nil)

/-- A sample configuration over a counter of calls: create (command 0) sets the handle value,
destroy (command 1) clears it, and one ordinary task (command 2) replies `(0, 5)`. -/
def sample_config : Config Nat :=
  { task_create :=
      ⟨0, fun handle _ calls => ⟨⟨7, handle.publish⟩, calls + 1, write (Shape.int true 4) OutputBuffer.new 0⟩⟩
    task_destroy :=
      ⟨1, fun handle _ calls => ⟨⟨0, handle.publish⟩, calls + 1, write (Shape.int true 4) OutputBuffer.new 0⟩⟩
    task_list :=
      [⟨2, fun handle _ calls => ⟨handle, calls + 1,
        write_tuple (Pack.cons (Shape.int true 4) (Pack.cons (Shape.int true 4) Pack.nil))
          OutputBuffer.new (0, 5, ())⟩⟩] }

/-- The sample configuration with a further ordinary task bound to the destroy command. -/
def shadowed_config : Config Nat :=
  { sample_config with
    task_list := sample_config.task_list ++
      [⟨1, fun handle _ calls => ⟨handle, calls + 1, write (Shape.int true 4) OutputBuffer.new 0⟩⟩] }

/-- A sample identifier. -/
def sample_id : Guid := Guid.ofBytes [1, 2, 3]

/-- The request buffer that carries the sample identifier and a command, without arguments. -/
def sample_request (cmd : Int) : InputBuffer :=
  InputBuffer.new (concat_encoded request_head (sample_id, cmd, ())) 20

/-- A server without sessions. -/
def sample_server : Server := ⟨5555, []⟩

/-- A server with a live session for the sample identifier. -/
def sample_server_live : Server := ⟨5555, [(sample_id, ⟨7, some sample_id.to_string⟩)]⟩

/-- The sample configuration with an ordinary task (command 3) that throws a value which does
not derive from `std::exception`, and one (command 4) that throws a `std::runtime_error`. -/
def throwing_config : Config Nat :=
  { sample_config with
    task_list := sample_config.task_list ++
      [⟨3, fun handle _ calls => ⟨handle, calls + 1, .error Thrown.foreign⟩⟩,
       ⟨4, fun handle _ calls => ⟨handle, calls + 1, .error (Thrown.std_exception "failed")⟩⟩] }

/-- A client with the sample identifier, before its callback port is known. -/
def sample_client : Client Nat := ⟨sample_id, 0, none⟩

/-- A client with the sample identifier and a monitor that holds callback 100 for command 2. -/
def sample_client_monitored : Client Nat := ⟨sample_id, 5555, some ⟨[(2, 100)]⟩⟩

/-- A transport that answers every message with the given bytes. -/
def replying (bytes : List Byte) : Transport := fun _ => .ok (InputBuffer.new bytes bytes.length)

/-- A transport on which every request times out. -/
def timing_out : Transport := fun _ => .error TimeoutException

/-- The transport of a client talking to a server in a given state: the message is handed to
`process_request` and the reply it returns comes back. -/
def served {σ : Type} (w : Nat) (cfg : Config σ) (srv : Server) (world : σ) : Transport :=
  fun message =>
    match message.data_ with
    | none => .error (ConnectionException "no message")
    | some bytes =>
      match (process_request w cfg srv (InputBuffer.new bytes bytes.length) world).reply with
      | .ok ⟨some reply⟩ => .ok (InputBuffer.new reply reply.length)
      | _ => .error TimeoutException

/-- The local `picam_image_t image;` a reader declares before the call of `read`; zero stands
for the members left without a value. -/
def blank_image : picam_image_t := ⟨0, 0, 0, 0, 0, 0⟩

/-- A gray image of one pixel, the first byte of its memory. -/
def pixel_image : picam_image_t := ⟨0, 1, 1, 1, 1, 0⟩

/-- The pack of one `int`. -/
def one_int : Pack := Pack.cons (Shape.int true 4) Pack.nil

/-- The bytes of a message that holds the pixel image with pixel 170 followed by the integer 7. -/
def pixel_message : List Byte :=
  [0, 0, 0, 0, 1, 0, 0, 0, 1, 0, 0, 0, 1, 0, 0, 0, 1, 0, 0, 0, 170, 7, 0, 0, 0]

/-- The bytes of a message that ends after the meta-data of an image of 1000 bytes. -/
def header_only_message : List Byte :=
  [0, 0, 0, 0, 1, 0, 0, 0, 1, 0, 0, 0, 1, 0, 0, 0, 232, 3, 0, 0]

/-- A gray image 2 pixels wide and 4 pixels high, at the start of its memory. -/
def tall_image : picam_image_t := ⟨0, 2, 4, 2, 8, 0⟩

/-- The memory of the tall image: the rows `1 2`, `3 4`, `5 6`, `7 8`. -/
def tall_memory : List Byte := [1, 2, 3, 4, 5, 6, 7, 8]

/-- The crop that keeps the left half of the width and the whole height. -/
def left_half : picam_roi_t := ⟨⟨0, 1⟩, ⟨0, 1⟩, ⟨1, 2⟩, ⟨1, 1⟩⟩

/-- A gray image 4 pixels wide and 2 pixels high, at the start of its memory. -/
def wide_image : picam_image_t := ⟨0, 4, 2, 4, 8, 0⟩

/-- The crop that keeps the whole width and the upper half of the height. -/
def upper_half : picam_roi_t := ⟨⟨0, 1⟩, ⟨0, 1⟩, ⟨1, 1⟩, ⟨1, 2⟩⟩

/-! ## Properties of the identifier -/

theorem Guid.ext_bytes {a b : Guid} (h : a.bytes_ = b.bytes_) : a = b := by
  cases a; cases b; simp_all

theorem Guid.bytes_eq (g : Guid) : g.bytes_ = (List.range 16).map g.get := by
  apply List.ext_getElem
  · simp [g.size_eq]
  · intro i h1 h2
    simp [Guid.get, List.getD_eq_getElem?_getD, h1]

set_option maxRecDepth 100000 in
theorem setw_hex_upper (b : Byte) : setw 2 '0' (hex_upper b.val) = H b := by
  revert b; decide

set_option maxRecDepth 100000 in
theorem wcstol16_H (b : Byte) :
    Byte.ofInt (wcstol16 [hex_digit (b.val / 16), hex_digit (b.val % 16), NUL]) = b := by
  revert b; decide

theorem to_string_eq (g : Guid) : g.to_string = String.mk
    (['\x7b'] ++ H (g.get 3) ++ H (g.get 2) ++ H (g.get 1) ++ H (g.get 0) ++ ['-']
      ++ H (g.get 5) ++ H (g.get 4) ++ ['-'] ++ H (g.get 7) ++ H (g.get 6) ++ ['-']
      ++ H (g.get 8) ++ H (g.get 9) ++ ['-']
      ++ H (g.get 10) ++ H (g.get 11) ++ H (g.get 12) ++ H (g.get 13) ++ H (g.get 14) ++ H (g.get 15)
      ++ ['\x7d']) := by
  simp [Guid.to_string, to_string_blocks, to_string_bytes, guid_specification, setw_hex_upper, H]

/-- Claim C3. Identifier round trip: for every Guid `g` (every sixteen bytes), parsing the
string form of `g` returns `g`: `Guid::from_string(g.to_string()) == g`. -/
theorem from_string_to_string (g : Guid) : Guid.from_string g.to_string = some (.ok g) := by
  rw [to_string_eq]
  simp [Guid.from_string, after_brace, c_str, from_string_blocks, from_string_bytes,
    guid_specification, H, wcstol16_H]
  apply Guid.ext_bytes
  rw [Guid.bytes_eq g]
  simp [Guid.set, Guid.zero, List.range, List.range.loop, List.replicate]

/-- Claim C4. String form of an identifier: for every Guid with bytes b0..b15, `to_string()` is
an opening brace, H(b3)H(b2)H(b1)H(b0), a dash, H(b5)H(b4), a dash, H(b7)H(b6), a dash,
H(b8)H(b9), a dash, H(b10)..H(b15) and a closing brace, where H(b) is two upper-case
hexadecimal digits; the result has 38 characters, and the bytes 00, 01, .., 0F give
"{03020100-0504-0706-0809-0A0B0C0D0E0F}". -/
theorem to_string_form (g : Guid) :
    g.to_string = String.mk
      (['\x7b'] ++ H (g.get 3) ++ H (g.get 2) ++ H (g.get 1) ++ H (g.get 0) ++ ['-']
        ++ H (g.get 5) ++ H (g.get 4) ++ ['-'] ++ H (g.get 7) ++ H (g.get 6) ++ ['-']
        ++ H (g.get 8) ++ H (g.get 9) ++ ['-']
        ++ H (g.get 10) ++ H (g.get 11) ++ H (g.get 12) ++ H (g.get 13) ++ H (g.get 14)
        ++ H (g.get 15) ++ ['\x7d']) ∧
    (∀ b : Byte, (H b).length = 2) ∧
    g.to_string.length = 38 ∧
    (Guid.ofBytes [0, 1, 2, 3, 4, 5, 6, 7, 8, 9, 10, 11, 12, 13, 14, 15]).to_string =
      "\x7b03020100-0504-0706-0809-0A0B0C0D0E0F\x7d" := by
  refine ⟨to_string_eq g, fun b => rfl, ?_, by decide⟩
  rw [to_string_eq]
  simp [H, String.length]

theorem generate_bytes (draw : Nat → Byte) :
    (Guid.generate draw).bytes_ =
      [draw 0, draw 1, draw 2, draw 3, draw 4, draw 5, draw 6,
        Byte.ofInt ((Byte.ofInt ((draw 7).val &&& 0x0F : Nat)).val ||| 0x40 : Nat),
        Byte.ofInt ((Byte.ofInt ((draw 8).val &&& 0x3F : Nat)).val ||| 0x80 : Nat),
        draw 9, draw 10, draw 11, draw 12, draw 13, draw 14, draw 15] := by
  simp [Guid.generate, Guid.set, Guid.get, Guid.zero, List.range, List.range.loop, List.replicate]

set_option maxRecDepth 100000 in
theorem version_nibble (b : Byte) :
    (Byte.ofInt ((Byte.ofInt (b.val &&& 0x0F : Nat)).val ||| 0x40 : Nat)).val / 16 = 4 ∧
    (Byte.ofInt ((Byte.ofInt (b.val &&& 0x0F : Nat)).val ||| 0x40 : Nat)).val % 16 = b.val % 16 := by
  revert b; decide

set_option maxRecDepth 100000 in
theorem variant_bits (b : Byte) :
    (Byte.ofInt ((Byte.ofInt (b.val &&& 0x3F : Nat)).val ||| 0x80 : Nat)).val / 64 = 2 ∧
    (Byte.ofInt ((Byte.ofInt (b.val &&& 0x3F : Nat)).val ||| 0x80 : Nat)).val % 64 = b.val % 64 ∧
    hex_digit ((Byte.ofInt ((Byte.ofInt (b.val &&& 0x3F : Nat)).val ||| 0x80 : Nat)).val / 16) ∈
      ['8', '9', 'A', 'B'] := by
  revert b; decide

set_option maxRecDepth 100000 in
theorem version_digit (b : Byte) :
    hex_digit ((Byte.ofInt ((Byte.ofInt (b.val &&& 0x0F : Nat)).val ||| 0x40 : Nat)).val / 16) = '4' := by
  revert b; decide

/-- Claim C5. Generated identifiers are version 4, RFC-4122 variant: whatever sixteen bytes
`Guid::generate` draws, the high nibble of byte 7 of the result is 0b0100 and the top two bits
of byte 8 are 0b10, every other bit is the drawn bit, and in `to_string()` the character at
index 15 is '4' and the character at index 20 is one of '8', '9', 'A', 'B'. -/
theorem generate_version4_variant (draw : Nat → Byte) :
    ((Guid.generate draw).get 7).val / 16 = 4 ∧
    ((Guid.generate draw).get 8).val / 64 = 2 ∧
    ((Guid.generate draw).get 7).val % 16 = (draw 7).val % 16 ∧
    ((Guid.generate draw).get 8).val % 64 = (draw 8).val % 64 ∧
    (∀ i, i < 16 → i ≠ 7 → i ≠ 8 → (Guid.generate draw).get i = draw i) ∧
    (Guid.generate draw).to_string.data.get? 15 = some '4' ∧
    (∃ c ∈ ['8', '9', 'A', 'B'], (Guid.generate draw).to_string.data.get? 20 = some c) := by
  have h7 : (Guid.generate draw).get 7 =
      Byte.ofInt ((Byte.ofInt ((draw 7).val &&& 0x0F : Nat)).val ||| 0x40 : Nat) := by
    simp [Guid.get, generate_bytes]
  have h8 : (Guid.generate draw).get 8 =
      Byte.ofInt ((Byte.ofInt ((draw 8).val &&& 0x3F : Nat)).val ||| 0x80 : Nat) := by
    simp [Guid.get, generate_bytes]
  refine ⟨?_, ?_, ?_, ?_, ?_, ?_, ?_⟩
  · rw [h7]; exact (version_nibble _).1
  · rw [h8]; exact (variant_bits _).1
  · rw [h7]; exact (version_nibble _).2
  · rw [h8]; exact (variant_bits _).2.1
  · intro i hi h7 h8
    simp only [Guid.get, generate_bytes]
    interval_cases i <;> simp_all
  · rw [to_string_eq, h7]
    simp [H, version_digit]
  · rw [to_string_eq, h8]
    refine ⟨_, (variant_bits (draw 8)).2.2, ?_⟩
    simp [H]

theorem emod_mul_split (v m : Int) (hm : 0 < m) :
    v % (256 * m) = v % 256 + 256 * (v / 256 % m) := by
  have h1 := Int.emod_add_ediv v 256
  have h2 := Int.emod_add_ediv (v / 256) m
  have h3 := Int.emod_nonneg v (by norm_num : (256 : Int) ≠ 0)
  have h4 := Int.emod_lt_of_pos v (by norm_num : (0 : Int) < 256)
  have h5 := Int.emod_nonneg (v / 256) (ne_of_gt hm)
  have h6 := Int.emod_lt_of_pos (v / 256) hm
  have key := (Int.ediv_emod_unique (a := v) (b := 256 * m)
    (r := v % 256 + 256 * (v / 256 % m)) (q := v / 256 / m) (by positivity)).2
    ⟨by nlinarith, by nlinarith, by nlinarith⟩
  exact key.2

theorem length_int_bytes (n : Nat) : ∀ v : Int, (int_bytes n v).length = n := by
  induction n with
  | zero => intro v; rfl
  | succ n ih => intro v; simp [int_bytes, ih]

theorem nat_of_bytes_int_bytes (n : Nat) :
    ∀ v : Int, (nat_of_bytes (int_bytes n v) : Int) = v % 256 ^ n := by
  induction n with
  | zero => intro v; simp [int_bytes, nat_of_bytes]
  | succ n ih =>
    intro v
    have hb : ((Byte.ofInt v).val : Int) = v % 256 := by
      simp only [Byte.ofInt]
      exact Int.toNat_of_nonneg (Int.emod_nonneg v (by norm_num))
    simp only [int_bytes, nat_of_bytes]
    push_cast
    rw [ih (v / 256), hb, pow_succ, mul_comm ((256 : Int) ^ n) 256,
      emod_mul_split v (256 ^ n) (by positivity)]

theorem pow_eight_mul (n : Nat) : (2 : Int) ^ (8 * n) = 256 ^ n := by
  rw [pow_mul]; norm_num

theorem int_of_bytes_int_bytes (signed : Bool) (n : Nat) (v : Int) :
    int_of_bytes signed n (int_bytes n v) = static_cast_int signed n v := by
  simp only [int_of_bytes, static_cast_int, nat_of_bytes_int_bytes, pow_eight_mul]

theorem static_cast_int_of_in_range (signed : Bool) (n : Nat) (v : Int) (hn : 0 < n)
    (h : in_range signed n v = true) : static_cast_int signed n v = v := by
  obtain ⟨k, rfl⟩ : ∃ k, n = k + 1 := ⟨n - 1, by omega⟩
  have hp : (2 : Int) ^ (8 * (k + 1)) = 2 * 2 ^ (8 * (k + 1) - 1) := by
    have : 8 * (k + 1) = (8 * (k + 1) - 1) + 1 := by omega
    conv_lhs => rw [this, pow_succ]
    ring
  have hpos : (0 : Int) < 2 ^ (8 * (k + 1) - 1) := by positivity
  cases signed
  · simp only [in_range, Bool.false_eq_true, ↓reduceIte, decide_eq_true_eq] at h
    simp only [static_cast_int]
    rw [hp] at h ⊢
    generalize (2 : Int) ^ (8 * (k + 1) - 1) = M at *
    simp [Int.emod_eq_of_lt h.1 h.2]
  · simp only [in_range, ↓reduceIte, decide_eq_true_eq] at h
    simp only [static_cast_int]
    rw [hp]
    generalize (2 : Int) ^ (8 * (k + 1) - 1) = M at *
    by_cases hv : 0 ≤ v
    · have : v % (2 * M) = v := Int.emod_eq_of_lt hv (by omega)
      rw [this]
      simp
      intro h'
      omega
    · have : v % (2 * M) = v + 2 * M := by
        have e : v % (2 * M) = (v + 2 * M) % (2 * M) := by simp
        rw [e]
        exact Int.emod_eq_of_lt (by omega) (by omega)
      rw [this]
      simp
      intro h'
      omega

theorem length_nat_cast_in_range (n : Nat) (h : n < 2 ^ 31) :
    in_range true 4 (n : Int) = true := by
  simp [in_range]
  omega

theorem read_ok (w : Nat) (d : List Byte) (c m n : Nat) (h : c + n ≤ m) (hm : m < 2 ^ w) :
    InputBuffer.read w ⟨d, c, m⟩ n = .ok (c, ⟨d, c + n, m⟩) := by
  have : (c + n) % 2 ^ w = c + n := Nat.mod_eq_of_lt (by omega)
  simp [InputBuffer.read, this]
  omega

theorem peek_mid (pre x post : List Byte) (c m : Nat) :
    (⟨pre ++ x ++ post, c, m⟩ : InputBuffer).peek pre.length x.length = x := by
  simp [InputBuffer.peek]

theorem read_fundamental_ok (w : Nat) (signed : Bool) (n : Nat) (v : Int)
    (data pre post : List Byte) (c : Nat) (hc : c = pre.length)
    (hd : data = pre ++ int_bytes n v ++ post) (hw : data.length < 2 ^ w) :
    read_fundamental w signed n ⟨data, c, data.length⟩ =
      .ok (static_cast_int signed n v, ⟨data, c + n, data.length⟩) := by
  subst hc
  have hlen : pre.length + n ≤ data.length := by
    rw [hd]; simp [length_int_bytes]
  simp only [read_fundamental, read_ok w data pre.length data.length n hlen hw]
  have hp := peek_mid pre (int_bytes n v) post (pre.length + n) data.length
  rw [length_int_bytes] at hp
  rw [hd] at *
  rw [hp, int_of_bytes_int_bytes]

theorem write_each_eq {α : Type} (write_value : OutputBuffer → α → Except Thrown OutputBuffer)
    (image : α → List Byte) (l : List α)
    (h : ∀ x ∈ l, ∀ acc, write_value ⟨some acc⟩ x = .ok ⟨some (acc ++ image x)⟩) :
    ∀ acc, write_each write_value ⟨some acc⟩ l = .ok ⟨some (acc ++ wire_each image l)⟩ := by
  induction l with
  | nil => intro acc; simp [write_each, wire_each]
  | cons x rest ih =>
    intro acc
    simp only [write_each, wire_each, h x (List.mem_cons_self _ _)]
    rw [ih (fun y hy => h y (List.mem_cons_of_mem _ hy))]
    simp

theorem write_eq_wire (s : Shape) :
    ∀ (v : s.type) (acc : List Byte), write s ⟨some acc⟩ v = .ok ⟨some (acc ++ wire s v)⟩ := by
  induction s using Shape.rec
    (motive_2 := fun p => ∀ (v : p.type) (acc : List Byte),
      write_tuple p ⟨some acc⟩ v = .ok ⟨some (acc ++ wire_pack p v)⟩) with
  | int signed size => intro v acc; simp [write, wire, write_fundamental, OutputBuffer.write]
  | enum signed size => intro v acc; simp [write, wire, write_fundamental, OutputBuffer.write]
  | bool => intro v acc; simp [write, wire, write_fundamental, OutputBuffer.write]
  | guid => intro v acc; simp [write, wire, OutputBuffer.write]
  | seq elem ih =>
    intro v acc
    simp only [write, wire, write_iterable, write_fundamental, OutputBuffer.write]
    rw [write_each_eq (write elem) (wire elem) v (fun x _ a => ih x a)]
    simp
  | tuple members ih => intro v acc; simp only [write, wire]; exact ih v acc
  | nil => rename_i v acc; simp [write_tuple, wire_pack]
  | cons head tail ih1 ih2 =>
    rename_i v acc
    obtain ⟨x, args⟩ := v
    simp only [write_tuple, wire_pack, ih1 x acc, ih2 args]
    simp

theorem encoded_eq_wire (s : Shape) (v : s.type) : encoded s v = wire s v := by
  simp [encoded, OutputBuffer.new, write_eq_wire]

theorem concat_encoded_eq (p : Pack) : ∀ v : p.type, concat_encoded p v = wire_pack p v := by
  induction p using Pack.rec (motive_1 := fun _ => True) with
  | int => trivial
  | enum => trivial
  | bool => trivial
  | guid => trivial
  | seq => trivial
  | tuple => trivial
  | nil => intro v; simp [concat_encoded, wire_pack]
  | cons head tail _ ih =>
    intro v
    obtain ⟨x, args⟩ := v
    simp [concat_encoded, wire_pack, encoded_eq_wire, ih args]

theorem Guid.ofBytes_bytes (g : Guid) : Guid.ofBytes g.bytes_ = g := by
  apply Guid.ext_bytes
  exact (Guid.bytes_eq g).symm

theorem read_each_ok {α : Type}
    (read_value : InputBuffer → Except Thrown (α × InputBuffer)) (image : α → List Byte)
    (data : List Byte) (l : List α)
    (h : ∀ x ∈ l, ∀ (pre post : List Byte) (c : Nat), c = pre.length →
      data = pre ++ image x ++ post →
      read_value ⟨data, c, data.length⟩ = .ok (x, ⟨data, c + (image x).length, data.length⟩)) :
    ∀ (acc : List α) (pre post : List Byte) (c : Nat), c = pre.length →
      data = pre ++ wire_each image l ++ post →
      read_each read_value l.length ⟨data, c, data.length⟩ acc =
        .ok (acc ++ l, ⟨data, c + (wire_each image l).length, data.length⟩) := by
  induction l with
  | nil => intro acc pre post c _ _; simp [read_each, wire_each]
  | cons x rest ih =>
    intro acc pre post c hc hd
    simp only [List.length_cons, read_each, wire_each]
    rw [h x (List.mem_cons_self _ _) pre (wire_each image rest ++ post) c hc
      (by rw [hd]; simp [wire_each])]
    simp only
    rw [ih (fun y hy => h y (List.mem_cons_of_mem _ hy)) (acc ++ [x]) (pre ++ image x) post
      (c + (image x).length) (by simp [hc]) (by rw [hd]; simp [wire_each])]
    simp [Nat.add_assoc]

theorem read_eq_value (w : Nat) (s : Shape) :
    ∀ (v : s.type), s.valid v = true → s.short v = true →
      ∀ (data pre post : List Byte) (c : Nat), c = pre.length →
        data = pre ++ wire s v ++ post → data.length < 2 ^ w →
        read w s ⟨data, c, data.length⟩ (Shape.default s) =
          .ok (v, ⟨data, c + (wire s v).length, data.length⟩) := by
  induction s using Shape.rec
    (motive_2 := fun p => ∀ (v : p.type), p.valid v = true → p.short v = true →
      ∀ (data pre post : List Byte) (c : Nat), c = pre.length →
        data = pre ++ wire_pack p v ++ post → data.length < 2 ^ w →
        read_tuple w p ⟨data, c, data.length⟩ (Pack.default p) =
          .ok (v, ⟨data, c + (wire_pack p v).length, data.length⟩)) with
  | int signed size =>
    intro v hv _ data pre post c hc hd hw
    simp only [Shape.valid, Bool.and_eq_true, decide_eq_true_eq] at hv
    simp only [read, wire, length_int_bytes]
    rw [read_fundamental_ok w signed size v data pre post c hc hd hw,
      static_cast_int_of_in_range signed size v hv.1 hv.2]
  | enum signed size =>
    intro v hv _ data pre post c hc hd hw
    simp only [Shape.valid, Bool.and_eq_true, decide_eq_true_eq] at hv
    simp only [read, wire, length_int_bytes]
    rw [read_fundamental_ok w true 4 _ data pre post c hc hd hw]
    simp only
    rw [static_cast_int_of_in_range true 4 v (by norm_num) hv.2,
      static_cast_int_of_in_range true 4 v (by norm_num) hv.2,
      static_cast_int_of_in_range signed size v hv.1.1 hv.1.2]
  | bool =>
    intro v _ _ data pre post c hc hd hw
    simp only [read, wire, length_int_bytes]
    rw [read_fundamental_ok w true 4 _ data pre post c hc hd hw]
    cases v <;> simp [static_cast_int]
  | guid =>
    intro v _ _ data pre post c hc hd hw
    subst hc
    have hlen : pre.length + 16 ≤ data.length := by
      rw [hd]; simp [wire, v.size_eq]
    simp only [read, wire, v.size_eq, read_ok w data pre.length data.length 16 hlen hw]
    have hp := peek_mid pre v.bytes_ post (pre.length + 16) data.length
    rw [v.size_eq] at hp
    simp only [wire] at hd
    rw [hd] at *
    rw [hp, Guid.ofBytes_bytes]
  | seq elem ih =>
    intro v hv hs data pre post c hc hd hw
    simp only [Shape.valid, List.all_eq_true] at hv
    simp only [Shape.short, Bool.and_eq_true, decide_eq_true_eq, List.all_eq_true] at hs
    simp only [wire] at hd
    simp only [read, wire, read_iterable, Shape.default]
    rw [read_fundamental_ok w true 4 (static_cast_int true 4 (v.length : Int)) data pre
      (wire_each (wire elem) v ++ post) c hc (by rw [hd]; simp) hw]
    have hl := static_cast_int_of_in_range true 4 (v.length : Int) (by norm_num)
      (length_nat_cast_in_range v.length hs.1)
    simp only [hl, static_cast_int_of_in_range true 4 (v.length : Int) (by norm_num)
      (length_nat_cast_in_range v.length hs.1)]
    have hneg : ¬ ((v.length : Int) < 0) := by omega
    simp only [hneg, ↓reduceIte, Int.toNat_ofNat]
    rw [read_each_ok _ (wire elem) data v
      (fun x hx pre' post' c' hc' hd' => ih x (hv x hx) (hs.2 x hx) data pre' post' c' hc' hd' hw)
      [] (pre ++ int_bytes 4 (v.length : Int)) post (c + 4)
      (by simp [hc, length_int_bytes]) (by rw [hd, hl]; simp)]
    simp [length_int_bytes, Nat.add_assoc]
  | tuple members ih =>
    intro v hv hs data pre post c hc hd hw
    simp only [read, wire, Shape.default]
    exact ih v (by simpa [Shape.valid] using hv) (by simpa [Shape.short] using hs)
      data pre post c hc (by simpa [wire] using hd) hw
  | nil =>
    rename_i v hv hs data pre post c hc hd hw
    simp [read_tuple, wire_pack]
  | cons head tail ih1 ih2 =>
    rename_i v hv hs data pre post c hc hd hw
    obtain ⟨x, args⟩ := v
    simp only [Pack.valid, Bool.and_eq_true] at hv
    simp only [Pack.short, Bool.and_eq_true] at hs
    simp only [wire_pack] at hd
    simp only [read_tuple, wire_pack, Pack.default]
    rw [ih1 x hv.1 hs.1 data pre (wire_pack tail args ++ post) c hc (by rw [hd]; simp) hw]
    simp only
    rw [ih2 args hv.2 hs.2 data (pre ++ wire head x) post (c + (wire head x).length)
      (by simp [hc]) (by rw [hd]; simp) hw]
    simp [Nat.add_assoc]

/-- Claim C1, amended. Codec round trip: for every value `v` of a supported wire shape
(fixed-width integer, enumeration whose value fits in 32 bits, boolean, 16-byte Guid, vector
or string of such values, tuple of such values) in which every vector or string has fewer than
`2 ^ 31` elements, and whose encoding is a buffer the size type can measure, writing `v` into a
fresh OutputBuffer succeeds, and reading the produced bytes from an InputBuffer into a fresh
default-constructed destination yields `v` and leaves the cursor exactly at the end of the
bytes that were written. -/
theorem codec_roundtrip (w : Nat) (s : Shape) (v : s.type)
    (hv : s.valid v = true) (hs : s.short v = true) (hw : (encoded s v).length < 2 ^ w) :
    write s OutputBuffer.new v = .ok ⟨some (encoded s v)⟩ ∧
    read w s (InputBuffer.new (encoded s v) (encoded s v).length) (Shape.default s) =
      .ok (v, ⟨encoded s v, (encoded s v).length, (encoded s v).length⟩) := by
  rw [encoded_eq_wire] at *
  refine ⟨by simp [OutputBuffer.new, write_eq_wire], ?_⟩
  have h := read_eq_value w s v hv hs (wire s v) [] [] 0 rfl (by simp) hw
  simpa [InputBuffer.new] using h

/-- Witness for claim C1, amended: the sample tuple on a 64-bit size type. -/
theorem codec_roundtrip_witness :
    (Shape.tuple sample_pack).valid sample_args = true ∧
    (Shape.tuple sample_pack).short sample_args = true ∧
    (encoded (Shape.tuple sample_pack) sample_args).length < 2 ^ 64 ∧
    write (Shape.tuple sample_pack) OutputBuffer.new sample_args =
      .ok ⟨some (encoded (Shape.tuple sample_pack) sample_args)⟩ ∧
    read 64 (Shape.tuple sample_pack)
      (InputBuffer.new (encoded (Shape.tuple sample_pack) sample_args)
        (encoded (Shape.tuple sample_pack) sample_args).length)
      (Shape.default (Shape.tuple sample_pack)) =
      .ok (sample_args, ⟨encoded (Shape.tuple sample_pack) sample_args,
        (encoded (Shape.tuple sample_pack) sample_args).length,
        (encoded (Shape.tuple sample_pack) sample_args).length⟩) :=
  ⟨by decide, by decide, by decide,
    codec_roundtrip 64 (Shape.tuple sample_pack) sample_args (by decide) (by decide) (by decide)⟩

theorem length_wire_each_octets (v : List Int) :
    (wire_each (wire (Shape.int false 1)) v).length = v.length := by
  induction v with
  | nil => rfl
  | cons x rest ih =>
    have hx : (wire (Shape.int false 1) x).length = 1 := by simp [wire, length_int_bytes]
    simp only [wire_each, List.length_append, List.length_cons, ih, hx]
    omega

theorem cast_length_long :
    static_cast_int true 4 (static_cast_int true 4 ((2 ^ 31 : Nat) : Int)) = -2147483648 := by
  decide

theorem wire_long_vector (v : List Int) (hlen : v.length = 2 ^ 31) :
    wire (Shape.seq (Shape.int false 1)) v =
      int_bytes 4 (static_cast_int true 4 ((2 ^ 31 : Nat) : Int)) ++
        wire_each (wire (Shape.int false 1)) v := by
  simp only [wire, hlen]

theorem read_long_vector (v : List Int) (hlen : v.length = 2 ^ 31) (post : List Byte)
    (hpost : post.length ≤ 4) (d : List Int) :
    read 64 (Shape.seq (Shape.int false 1))
      ⟨wire (Shape.seq (Shape.int false 1)) v ++ post, 0,
        (wire (Shape.seq (Shape.int false 1)) v ++ post).length⟩ d =
      .error (Thrown.std_exception "reserve") := by
  have hw : (wire (Shape.seq (Shape.int false 1)) v ++ post).length < 2 ^ 64 := by
    rw [wire_long_vector v hlen]
    simp only [List.length_append, length_int_bytes, length_wire_each_octets, hlen]
    omega
  have hr := read_fundamental_ok 64 true 4 (static_cast_int true 4 ((2 ^ 31 : Nat) : Int))
    (wire (Shape.seq (Shape.int false 1)) v ++ post) []
    (wire_each (wire (Shape.int false 1)) v ++ post) 0 rfl
    (by rw [wire_long_vector v hlen]; simp) hw
  simp only [read, read_iterable, hr, cast_length_long]
  rfl

theorem valid_zeros (v : List Int) (h : ∀ x ∈ v, x = 0) :
    Shape.valid (Shape.seq (Shape.int false 1)) v = true := by
  simp only [Shape.valid, List.all_eq_true]
  intro x hx
  rw [h x hx]
  decide

theorem roundtrip_fails_of_long (v : List Int) (hlen : v.length = 2 ^ 31)
    (hall : ∀ x ∈ v, x = 0) :
    Shape.valid (Shape.seq (Shape.int false 1)) v = true ∧
    write (Shape.seq (Shape.int false 1)) OutputBuffer.new v =
      .ok ⟨some (encoded (Shape.seq (Shape.int false 1)) v)⟩ ∧
    (encoded (Shape.seq (Shape.int false 1)) v).length < 2 ^ 64 ∧
    read 64 (Shape.seq (Shape.int false 1))
      (InputBuffer.new (encoded (Shape.seq (Shape.int false 1)) v)
        (encoded (Shape.seq (Shape.int false 1)) v).length)
      (Shape.default (Shape.seq (Shape.int false 1))) =
      .error (Thrown.std_exception "reserve") := by
  rw [encoded_eq_wire]
  refine ⟨valid_zeros v hall, ?_, ?_, ?_⟩
  · rw [OutputBuffer.new, write_eq_wire]; rfl
  · rw [wire_long_vector v hlen]
    simp only [List.length_append, length_int_bytes, length_wire_each_octets, hlen]
    omega
  · have h := read_long_vector v hlen [] (by simp) (Shape.default (Shape.seq (Shape.int false 1)))
    simpa [InputBuffer.new] using h

/-- Counterexample to claim C1 as stated: a vector of `2 ^ 31` octets is a value of a
supported shape; it is written without error (its length prefix is the 32-bit integer
`-2 ^ 31`), and reading the produced bytes back on a 64-bit size type does not yield the
vector: the negative length makes `reserve` throw. -/
theorem long_vector_breaks_roundtrip :
    Shape.valid (Shape.seq (Shape.int false 1)) (List.replicate (2 ^ 31) (0 : Int)) = true ∧
    write (Shape.seq (Shape.int false 1)) OutputBuffer.new (List.replicate (2 ^ 31) (0 : Int)) =
      .ok ⟨some (encoded (Shape.seq (Shape.int false 1)) (List.replicate (2 ^ 31) (0 : Int)))⟩ ∧
    (encoded (Shape.seq (Shape.int false 1)) (List.replicate (2 ^ 31) (0 : Int))).length < 2 ^ 64 ∧
    read 64 (Shape.seq (Shape.int false 1))
      (InputBuffer.new (encoded (Shape.seq (Shape.int false 1)) (List.replicate (2 ^ 31) (0 : Int)))
        (encoded (Shape.seq (Shape.int false 1)) (List.replicate (2 ^ 31) (0 : Int))).length)
      (Shape.default (Shape.seq (Shape.int false 1))) =
      .error (Thrown.std_exception "reserve") :=
  roundtrip_fails_of_long (List.replicate (2 ^ 31) (0 : Int)) (List.length_replicate _ _)
    (fun _ hx => List.eq_of_mem_replicate hx)

/-- Claim C2, amended. Positional codec without framing: for every list of values w1..wn of
supported shapes, the bytes produced by `write(buffer, w1, ..., wn)`, and by writing the tuple
(w1, ..., wn), are exactly the concatenation of the encodings of w1, .., wn in declared order;
and when every vector or string among them has fewer than `2 ^ 31` elements and the bytes form
a buffer the size type can measure, reading n values of the same shapes in the same order
from those bytes returns w1, ..., wn and ends at the end of the bytes. -/
theorem positional_codec (w : Nat) (p : Pack) (args : p.type) :
    write_tuple p OutputBuffer.new args = .ok ⟨some (concat_encoded p args)⟩ ∧
    write (Shape.tuple p) OutputBuffer.new args = .ok ⟨some (concat_encoded p args)⟩ ∧
    (p.valid args = true → p.short args = true → (concat_encoded p args).length < 2 ^ w →
      read_tuple w p (InputBuffer.new (concat_encoded p args) (concat_encoded p args).length)
        (Pack.default p) =
        .ok (args, ⟨concat_encoded p args, (concat_encoded p args).length,
          (concat_encoded p args).length⟩)) := by
  rw [concat_encoded_eq]
  have hwr := write_eq_wire (Shape.tuple p) args []
  simp only [wire, List.nil_append] at hwr
  refine ⟨?_, hwr, ?_⟩
  · simpa [write] using hwr
  · intro hv hs hw
    have h := read_eq_value w (Shape.tuple p) args (by simpa [Shape.valid] using hv)
      (by simpa [Shape.short] using hs) (wire_pack p args) [] [] 0 rfl (by simp [wire]) hw
    simpa [InputBuffer.new, read, wire, Shape.default] using h

/-- Witness for claim C2, amended: the sample pack on a 64-bit size type. -/
theorem positional_codec_witness :
    sample_pack.valid sample_args = true ∧ sample_pack.short sample_args = true ∧
    (concat_encoded sample_pack sample_args).length < 2 ^ 64 ∧
    write_tuple sample_pack OutputBuffer.new sample_args =
      .ok ⟨some (concat_encoded sample_pack sample_args)⟩ ∧
    write (Shape.tuple sample_pack) OutputBuffer.new sample_args =
      .ok ⟨some (concat_encoded sample_pack sample_args)⟩ ∧
    read_tuple 64 sample_pack
      (InputBuffer.new (concat_encoded sample_pack sample_args)
        (concat_encoded sample_pack sample_args).length)
      (Pack.default sample_pack) =
      .ok (sample_args, ⟨concat_encoded sample_pack sample_args,
        (concat_encoded sample_pack sample_args).length,
        (concat_encoded sample_pack sample_args).length⟩) :=
  ⟨by decide, by decide, by decide,
    (positional_codec 64 sample_pack sample_args).1,
    (positional_codec 64 sample_pack sample_args).2.1,
    (positional_codec 64 sample_pack sample_args).2.2 (by decide) (by decide) (by decide)⟩

theorem positional_fails_of_long (v : List Int) (hlen : v.length = 2 ^ 31)
    (hall : ∀ x ∈ v, x = 0) :
    octets_then_bool.valid (v, true, ()) = true ∧
    write_tuple octets_then_bool OutputBuffer.new (v, true, ()) =
      .ok ⟨some (concat_encoded octets_then_bool (v, true, ()))⟩ ∧
    (concat_encoded octets_then_bool (v, true, ())).length < 2 ^ 64 ∧
    read_tuple 64 octets_then_bool
      (InputBuffer.new (concat_encoded octets_then_bool (v, true, ()))
        (concat_encoded octets_then_bool (v, true, ())).length)
      (Pack.default octets_then_bool) = .error (Thrown.std_exception "reserve") := by
  have hc : concat_encoded octets_then_bool (v, true, ()) =
      wire (Shape.seq (Shape.int false 1)) v ++ int_bytes 4 1 := by
    rw [concat_encoded_eq]
    simp [octets_then_bool, wire_pack, wire]
  have hwr := write_eq_wire (Shape.tuple octets_then_bool) (v, true, ()) []
  simp only [wire, List.nil_append, ← concat_encoded_eq] at hwr
  refine ⟨?_, ?_, ?_, ?_⟩
  · have hz := valid_zeros v hall
    simp only [octets_then_bool, Pack.valid]
    rw [hz]
    rfl
  · simpa [write] using hwr
  · rw [hc, wire_long_vector v hlen]
    simp only [List.length_append, length_int_bytes, length_wire_each_octets, hlen]
    omega
  · rw [hc]
    have h := read_long_vector v hlen (int_bytes 4 1) (by simp [length_int_bytes])
      (Shape.default (Shape.seq (Shape.int false 1)))
    simp only [InputBuffer.new, octets_then_bool, read_tuple, Pack.default, h]

/-- Counterexample to claim C2 as stated: for a vector of `2 ^ 31` octets followed by a boolean,
the write produces the concatenation of the two encodings, and reading a vector and a boolean
from those bytes on a 64-bit size type returns neither: `reserve` throws on the negative
length. -/
theorem long_vector_breaks_positional_read :
    octets_then_bool.valid (List.replicate (2 ^ 31) (0 : Int), true, ()) = true ∧
    write_tuple octets_then_bool OutputBuffer.new (List.replicate (2 ^ 31) (0 : Int), true, ()) =
      .ok ⟨some (concat_encoded octets_then_bool (List.replicate (2 ^ 31) (0 : Int), true, ()))⟩ ∧
    (concat_encoded octets_then_bool (List.replicate (2 ^ 31) (0 : Int), true, ())).length
      < 2 ^ 64 ∧
    read_tuple 64 octets_then_bool
      (InputBuffer.new
        (concat_encoded octets_then_bool (List.replicate (2 ^ 31) (0 : Int), true, ()))
        (concat_encoded octets_then_bool (List.replicate (2 ^ 31) (0 : Int), true, ())).length)
      (Pack.default octets_then_bool) = .error (Thrown.std_exception "reserve") :=
  positional_fails_of_long (List.replicate (2 ^ 31) (0 : Int)) (List.length_replicate _ _)
    (fun _ hx => List.eq_of_mem_replicate hx)

/-! ## Properties of the server dispatch -/

theorem map_find_append (m : List (Guid × Handle)) (k key : Guid) (h : Handle) :
    map_find (m ++ [(k, h)]) key =
      match map_find m key with
      | some x => some x
      | none => if k = key then some h else none := by
  induction m with
  | nil => simp [map_find]
  | cons e rest ih =>
    obtain ⟨k', h'⟩ := e
    by_cases hk : k' = key
    · simp [map_find, hk]
    · simp [map_find, hk, ih]

theorem map_find_index_self (m : List (Guid × Handle)) (key : Guid) :
    map_find (map_index m key) key = some ((map_find m key).getD Handle.new) := by
  unfold map_index
  cases h : map_find m key with
  | some x => simp [h]
  | none => simp [map_find_append, h]

theorem map_find_index_ne (m : List (Guid × Handle)) (key k : Guid) (hk : k ≠ key) :
    map_find (map_index m key) k = map_find m k := by
  unfold map_index
  cases h : map_find m key with
  | some x => simp
  | none =>
    simp only [map_find_append]
    cases map_find m k with
    | some y => rfl
    | none => simp [Ne.symm hk]

theorem map_index_of_present (m : List (Guid × Handle)) (key : Guid) (h : Handle)
    (hf : map_find m key = some h) : map_index m key = m := by
  simp [map_index, hf]

theorem map_find_assign_self (m : List (Guid × Handle)) (key : Guid) (h h' : Handle)
    (hf : map_find m key = some h) : map_find (map_assign m key h') key = some h' := by
  induction m with
  | nil => simp [map_find] at hf
  | cons e rest ih =>
    obtain ⟨k', x⟩ := e
    by_cases hk : k' = key
    · simp [map_assign, map_find, hk]
    · simp only [map_find, hk, ↓reduceIte] at hf
      simp [map_assign, map_find, hk, ih hf]

theorem map_find_assign_ne (m : List (Guid × Handle)) (key k : Guid) (h' : Handle)
    (hk : k ≠ key) : map_find (map_assign m key h') k = map_find m k := by
  induction m with
  | nil => simp [map_assign]
  | cons e rest ih =>
    obtain ⟨k', x⟩ := e
    by_cases hk' : k' = key
    · subst hk'
      simp [map_assign, map_find, Ne.symm hk]
    · by_cases hk2 : k' = k
      · subst hk2
        simp [map_assign, map_find, hk']
      · simp [map_assign, map_find, hk', hk2, ih]

theorem map_find_erase_self (m : List (Guid × Handle)) (key : Guid) :
    map_find (map_erase m key) key = none := by
  induction m with
  | nil => simp [map_erase, map_find]
  | cons e rest ih =>
    obtain ⟨k', x⟩ := e
    by_cases hk : k' = key
    · simp [map_erase, hk, ih]
    · simp [map_erase, hk, map_find, ih]

theorem map_find_erase_ne (m : List (Guid × Handle)) (key k : Guid) (hk : k ≠ key) :
    map_find (map_erase m key) k = map_find m k := by
  induction m with
  | nil => simp [map_erase, map_find]
  | cons e rest ih =>
    obtain ⟨k', x⟩ := e
    by_cases hk' : k' = key
    · subst hk'
      simp [map_erase, map_find, Ne.symm hk, ih]
    · by_cases hk2 : k' = k
      · subst hk2
        simp [map_erase, map_find, hk']
      · simp [map_erase, map_find, hk', hk2, ih]

theorem first_task_none {σ : Type} (cmd : Int) (l : List (Task σ))
    (h : ∀ t ∈ l, t.cmd ≠ cmd) : ∀ i, first_task cmd l i = none := by
  induction l with
  | nil => intro i; rfl
  | cons t rest ih =>
    intro i
    have ht : ¬ cmd = t.cmd := fun e => h t (List.mem_cons_self _ _) e.symm
    simp only [first_task, ht, ↓reduceIte]
    exact ih (fun t' ht' => h t' (List.mem_cons_of_mem _ ht')) _

theorem reply_code_eq (code : Errc) :
    reply_code code = .ok ⟨some (int_bytes 4 code.value)⟩ := by
  cases code <;> rfl

/-- A request other than create for an identifier without a present handle value: the reply
is the code operation_not_supported, no task is called, and the map is the one after
`handles_[identifier]`. -/
theorem process_request_absent {σ : Type} (w : Nat) (cfg : Config σ) (srv : Server)
    (request rest : InputBuffer) (world : σ) (identifier : Guid) (cmd : Int)
    (hreq : read_tuple w request_head request (Pack.default request_head) =
      .ok ((identifier, cmd, ()), rest))
    (habsent : ∀ h, map_find srv.handles_ identifier = some h → h.value = 0)
    (hcmd : cmd ≠ cfg.task_create.cmd) :
    process_request w cfg srv request world =
      ⟨{ srv with handles_ := map_index srv.handles_ identifier }, world, [],
        .ok ⟨some (int_bytes 4 Errc.operation_not_supported.value)⟩⟩ := by
  have hval : ((map_find srv.handles_ identifier).getD Handle.new).value = 0 := by
    cases hf : map_find srv.handles_ identifier with
    | none => rfl
    | some h => simpa using habsent h hf
  simp [process_request, process_request_try, hreq, map_find_index_self, hval, hcmd,
    reply_code_eq, Except.map]

/-- Claim C9. Unsupported requests: `process_request` replies with exactly the 32-bit code
operation_not_supported and invokes no task procedure whenever (a) the identifier has no
present handle value and `cmd` is not the create command, or (b) the identifier has a present
handle value and `cmd` matches neither an ordinary task, nor the create command, nor the
destroy command. -/
theorem unsupported_request {σ : Type} (w : Nat) (cfg : Config σ) (srv : Server)
    (request rest : InputBuffer) (world : σ) (identifier : Guid) (cmd : Int)
    (hreq : read_tuple w request_head request (Pack.default request_head) =
      .ok ((identifier, cmd, ()), rest))
    (h : ((∀ h, map_find srv.handles_ identifier = some h → h.value = 0) ∧
          cmd ≠ cfg.task_create.cmd) ∨
        ((∃ h, map_find srv.handles_ identifier = some h ∧ h.value ≠ 0) ∧
          (∀ t ∈ cfg.task_list, t.cmd ≠ cmd) ∧
          cmd ≠ cfg.task_create.cmd ∧ cmd ≠ cfg.task_destroy.cmd)) :
    (process_request w cfg srv request world).reply =
      .ok ⟨some (int_bytes 4 Errc.operation_not_supported.value)⟩ ∧
    (process_request w cfg srv request world).invoked = [] ∧
    (process_request w cfg srv request world).world = world := by
  rcases h with ⟨habsent, hcmd⟩ | ⟨⟨hd, hf, hval⟩, hlist, hcreate, hdestroy⟩
  · rw [process_request_absent w cfg srv request rest world identifier cmd hreq habsent hcmd]
    exact ⟨rfl, rfl, rfl⟩
  · simp [process_request, process_request_try, hreq, map_find_index_self, hf, hval, hcreate,
      hdestroy, first_task_none cmd cfg.task_list hlist, reply_code_eq]

/-- Claim C8. Double create is refused: for an identifier whose handle value is already present,
a request with the create command (not listed among the ordinary tasks) is answered with
exactly the 32-bit code connection_already_in_progress, the create task is not invoked, and
the server with its handle map is unchanged. -/
theorem double_create_refused {σ : Type} (w : Nat) (cfg : Config σ) (srv : Server)
    (request rest : InputBuffer) (world : σ) (identifier : Guid) (cmd : Int)
    (hreq : read_tuple w request_head request (Pack.default request_head) =
      .ok ((identifier, cmd, ()), rest))
    (hcmd : cmd = cfg.task_create.cmd)
    (hlist : ∀ t ∈ cfg.task_list, t.cmd ≠ cmd)
    (hpresent : ∃ h, map_find srv.handles_ identifier = some h ∧ h.value ≠ 0) :
    (process_request w cfg srv request world).reply =
      .ok ⟨some (int_bytes 4 Errc.connection_already_in_progress.value)⟩ ∧
    (process_request w cfg srv request world).invoked = [] ∧
    (process_request w cfg srv request world).server = srv ∧
    (process_request w cfg srv request world).world = world := by
  obtain ⟨hd, hf, hval⟩ := hpresent
  subst hcmd
  simp [process_request, process_request_try, hreq, map_find_index_self, hf, hval,
    first_task_none _ cfg.task_list hlist, reply_code_eq, Except.map,
    map_index_of_present srv.handles_ identifier hd hf]

/-- Witness for claim C9: an ordinary command for an identifier the sample server does not
know (case a), and a command no task is bound to for a live session (case b). -/
theorem unsupported_request_witness :
    ((process_request 64 sample_config sample_server (sample_request 2) 0).reply =
        .ok ⟨some (int_bytes 4 Errc.operation_not_supported.value)⟩ ∧
      (process_request 64 sample_config sample_server (sample_request 2) 0).invoked = [] ∧
      (process_request 64 sample_config sample_server (sample_request 2) 0).world = 0) ∧
    ((process_request 64 sample_config sample_server_live (sample_request 9) 0).reply =
        .ok ⟨some (int_bytes 4 Errc.operation_not_supported.value)⟩ ∧
      (process_request 64 sample_config sample_server_live (sample_request 9) 0).invoked = [] ∧
      (process_request 64 sample_config sample_server_live (sample_request 9) 0).world = 0) :=
  ⟨unsupported_request 64 sample_config sample_server (sample_request 2)
      ⟨(sample_request 2).data_, 20, 20⟩ 0 sample_id 2 (by rfl)
      (Or.inl ⟨by simp [sample_server, map_find], by decide⟩),
    unsupported_request 64 sample_config sample_server_live (sample_request 9)
      ⟨(sample_request 9).data_, 20, 20⟩ 0 sample_id 9 (by rfl)
      (Or.inr ⟨⟨⟨7, some sample_id.to_string⟩, by decide, by decide⟩,
        by simp [sample_config], by decide, by decide⟩)⟩

/-- Witness for claim C8: a create request for the live session of the sample server. -/
theorem double_create_refused_witness :
    (process_request 64 sample_config sample_server_live (sample_request 0) 0).reply =
      .ok ⟨some (int_bytes 4 Errc.connection_already_in_progress.value)⟩ ∧
    (process_request 64 sample_config sample_server_live (sample_request 0) 0).invoked = [] ∧
    (process_request 64 sample_config sample_server_live (sample_request 0) 0).server =
      sample_server_live ∧
    (process_request 64 sample_config sample_server_live (sample_request 0) 0).world = 0 :=
  double_create_refused 64 sample_config sample_server_live (sample_request 0)
    ⟨(sample_request 0).data_, 20, 20⟩ 0 sample_id 0 (by rfl) (by rfl)
    (by simp [sample_config])
    ⟨⟨7, some sample_id.to_string⟩, by decide, by decide⟩

/-- Counterexample to claim C10 as stated: in a configuration that also lists an ordinary task
under the destroy command, a destroy request for a live session runs that ordinary task; the
destroy task is not invoked and the entry stays in the map. -/
theorem destroy_shadowed_by_ordinary_task :
    map_find sample_server_live.handles_ sample_id = some ⟨7, some sample_id.to_string⟩ ∧
    shadowed_config.task_destroy.cmd = 1 ∧
    (process_request 64 shadowed_config sample_server_live (sample_request 1) 0).invoked =
      [Invoked.ordinary 1] ∧
    map_find (process_request 64 shadowed_config sample_server_live (sample_request 1) 0).server.handles_
      sample_id = some ⟨7, some sample_id.to_string⟩ := by
  decide

/-- Claim C10, amended. Server dispatch of DESTROY: for an identifier with a present handle
value, a request with the destroy command, when no ordinary task has that command and it
differs from the create command, invokes the destroy task exactly once. When that task
returns a reply, the reply is returned unchanged and the entry of the identifier is removed
from the map whatever the reply holds; all other entries are unchanged, and a following
non-create request for the same identifier is answered operation_not_supported. -/
theorem destroy_dispatch {σ : Type} (w : Nat) (cfg : Config σ) (srv : Server)
    (request rest : InputBuffer) (world : σ) (identifier : Guid) (cmd : Int)
    (handle : Handle)
    (hreq : read_tuple w request_head request (Pack.default request_head) =
      .ok ((identifier, cmd, ()), rest))
    (hcmd : cmd = cfg.task_destroy.cmd)
    (hlist : ∀ t ∈ cfg.task_list, t.cmd ≠ cmd)
    (hcreate : cmd ≠ cfg.task_create.cmd)
    (hfind : map_find srv.handles_ identifier = some handle)
    (hvalue : handle.value ≠ 0) :
    (process_request w cfg srv request world).invoked = [Invoked.destroy] ∧
    (process_request w cfg srv request world).world =
      (cfg.task_destroy.execute handle rest world).world ∧
    ∀ reply : OutputBuffer, (cfg.task_destroy.execute handle rest world).reply = .ok reply →
      (process_request w cfg srv request world).reply = .ok reply ∧
      map_find (process_request w cfg srv request world).server.handles_ identifier = none ∧
      (∀ k, k ≠ identifier →
        map_find (process_request w cfg srv request world).server.handles_ k =
          map_find srv.handles_ k) ∧
      (∀ (next next_rest : InputBuffer) (next_cmd : Int) (next_world : σ),
        read_tuple w request_head next (Pack.default request_head) =
          .ok ((identifier, next_cmd, ()), next_rest) →
        next_cmd ≠ cfg.task_create.cmd →
        (process_request w cfg (process_request w cfg srv request world).server next
            next_world).reply = .ok ⟨some (int_bytes 4 Errc.operation_not_supported.value)⟩ ∧
        (process_request w cfg (process_request w cfg srv request world).server next
            next_world).invoked = []) := by
  subst hcmd
  cases hrep : (cfg.task_destroy.execute handle rest world).reply with
  | error e =>
    cases e <;>
      simp [process_request, process_request_try, hreq, map_find_index_self, hfind, hvalue,
        hcreate, first_task_none _ cfg.task_list hlist, hrep,
        map_index_of_present srv.handles_ identifier handle hfind]
  | ok reply0 =>
    have hout : process_request w cfg srv request world =
        ⟨⟨srv.callback_port_, map_erase srv.handles_ identifier⟩,
          (cfg.task_destroy.execute handle rest world).world, [Invoked.destroy], .ok reply0⟩ := by
      simp [process_request, process_request_try, hreq, map_find_index_self, hfind, hvalue,
        hcreate, first_task_none _ cfg.task_list hlist, hrep,
        map_index_of_present srv.handles_ identifier handle hfind]
    rw [hout]
    refine ⟨rfl, rfl, ?_⟩
    intro reply hreply
    injection hreply with hreply
    subst hreply
    refine ⟨rfl, map_find_erase_self _ _, fun k hk => map_find_erase_ne _ _ _ hk, ?_⟩
    intro next next_rest next_cmd next_world hnext hnc
    rw [process_request_absent w cfg _ next next_rest next_world identifier next_cmd hnext
      (by intro h hh; simp [map_find_erase_self] at hh) hnc]
    exact ⟨rfl, rfl⟩

/-- Witness for claim C10, amended: a destroy request for the live session of the sample
server; the reply is the destroy task's `(0)`, the entry is gone, and a following ordinary
request for the same identifier is answered operation_not_supported. -/
theorem destroy_dispatch_witness :
    (process_request 64 sample_config sample_server_live (sample_request 1) 0).invoked =
      [Invoked.destroy] ∧
    (process_request 64 sample_config sample_server_live (sample_request 1) 0).reply =
      .ok ⟨some (int_bytes 4 0)⟩ ∧
    map_find
      (process_request 64 sample_config sample_server_live (sample_request 1) 0).server.handles_
      sample_id = none ∧
    (process_request 64 sample_config
        (process_request 64 sample_config sample_server_live (sample_request 1) 0).server
        (sample_request 2) 1).reply =
      .ok ⟨some (int_bytes 4 Errc.operation_not_supported.value)⟩ :=
  have destroyed := destroy_dispatch 64 sample_config sample_server_live (sample_request 1)
    ⟨(sample_request 1).data_, 20, 20⟩ 0 sample_id 1 ⟨7, some sample_id.to_string⟩
    (by rfl) (by rfl) (by simp [sample_config]) (by decide) (by decide) (by decide)
  ⟨destroyed.1,
    (destroyed.2.2 ⟨some (int_bytes 4 0)⟩ (by rfl)).1,
    (destroyed.2.2 ⟨some (int_bytes 4 0)⟩ (by rfl)).2.1,
    ((destroyed.2.2 ⟨some (int_bytes 4 0)⟩ (by rfl)).2.2.2 (sample_request 2)
      ⟨(sample_request 2).data_, 20, 20⟩ 2 1 (by rfl) (by decide)).1⟩

/-! ## Properties of the server sessions and task failures -/

/-- Claim C11, the code at the failing input. Starting from an empty handle map, one request
with an ordinary command for an identifier the server does not know is answered
operation_not_supported without any task being called, and leaves an entry with an absent
handle value in the map. -/
theorem unknown_identifier_leaves_entry :
    sample_server.handles_ = [] ∧
    (process_request 64 sample_config sample_server (sample_request 2) 0).reply =
      .ok ⟨some (int_bytes 4 Errc.operation_not_supported.value)⟩ ∧
    (process_request 64 sample_config sample_server (sample_request 2) 0).invoked = [] ∧
    (process_request 64 sample_config sample_server (sample_request 2) 0).server.handles_ =
      [(sample_id, ⟨0, none⟩)] := by
  decide

/-- Claim C12, amended. Task failure is reported, not propagated: for every request whose
matched task procedure (ordinary, create or destroy) throws an exception derived from
`std::exception`, `process_request` calls that task only and returns a reply that is exactly
the 32-bit code state_not_recoverable. -/
theorem task_failure_reported {σ : Type} (w : Nat) (cfg : Config σ) (srv : Server)
    (request rest : InputBuffer) (world : σ) (identifier : Guid) (cmd : Int)
    (name : Invoked) (task : Task σ) (e : Thrown)
    (hreq : read_tuple w request_head request (Pack.default request_head) =
      .ok ((identifier, cmd, ()), rest))
    (hmatch : matched_task cfg ((map_find srv.handles_ identifier).getD Handle.new) cmd =
      some (name, task))
    (hthrow : (task.execute ((map_find srv.handles_ identifier).getD Handle.new) rest
      world).reply = .error e)
    (hstd : e ≠ Thrown.foreign) :
    (process_request w cfg srv request world).invoked = [name] ∧
    (process_request w cfg srv request world).reply =
      .ok ⟨some (int_bytes 4 Errc.state_not_recoverable.value)⟩ := by
  generalize hh : (map_find srv.handles_ identifier).getD Handle.new = handle at hmatch hthrow
  unfold matched_task at hmatch
  by_cases hguard : handle.value = 0 ∧ cmd ≠ cfg.task_create.cmd
  · simp [hguard] at hmatch
  · simp only [hguard, ↓reduceIte] at hmatch
    cases hfirst : first_task cmd cfg.task_list 0 with
    | some found =>
      obtain ⟨index, t⟩ := found
      simp only [hfirst, Option.some.injEq, Prod.mk.injEq] at hmatch
      obtain ⟨rfl, rfl⟩ := hmatch
      cases e <;>
        simp [process_request, process_request_try, hreq, map_find_index_self, hh, hguard,
          hfirst, hthrow, Except.map, reply_code_eq] at hstd ⊢
    | none =>
      simp only [hfirst] at hmatch
      by_cases hc : cmd = cfg.task_create.cmd
      · subst hc
        by_cases hv : handle.value = 0
        · simp only [hv, ne_eq, not_true_eq_false, ↓reduceIte, Option.some.injEq,
            Prod.mk.injEq] at hmatch
          obtain ⟨rfl, rfl⟩ := hmatch
          cases e <;>
            simp [process_request, process_request_try, hreq, map_find_index_self, hh,
              hfirst, hthrow, hv, Except.map, reply_code_eq] at hstd ⊢
        · simp [hv] at hmatch
      · have hv : handle.value ≠ 0 := fun h0 => hguard ⟨h0, hc⟩
        by_cases hd : cmd = cfg.task_destroy.cmd
        · subst hd
          simp only [hc, ↓reduceIte, Option.some.injEq, Prod.mk.injEq] at hmatch
          obtain ⟨rfl, rfl⟩ := hmatch
          cases e <;>
            simp [process_request, process_request_try, hreq, map_find_index_self, hh,
              hfirst, hthrow, hv, hc, Except.map, reply_code_eq] at hstd ⊢
        · simp [hc, hd] at hmatch

/-- Counterexample to claim C12 as stated: when the matched ordinary task throws a value that
does not derive from `std::exception`, `process_request` does not return a reply; the thrown
value leaves the function. -/
theorem foreign_throw_escapes :
    map_find sample_server_live.handles_ sample_id = some ⟨7, some sample_id.to_string⟩ ∧
    (throwing_config.task_list.map (fun t => t.cmd)) = [2, 3, 4] ∧
    (process_request 64 throwing_config sample_server_live (sample_request 3) 0).invoked =
      [Invoked.ordinary 1] ∧
    (process_request 64 throwing_config sample_server_live (sample_request 3) 0).reply =
      .error Thrown.foreign := by
  decide

/-- Witness for claim C12, amended: the ordinary task of the sample configuration that throws a
`std::runtime_error`. -/
theorem task_failure_reported_witness :
    (process_request 64 throwing_config sample_server_live (sample_request 4) 0).invoked =
      [Invoked.ordinary 2] ∧
    (process_request 64 throwing_config sample_server_live (sample_request 4) 0).reply =
      .ok ⟨some (int_bytes 4 Errc.state_not_recoverable.value)⟩ :=
  task_failure_reported 64 throwing_config sample_server_live (sample_request 4)
    ⟨(sample_request 4).data_, 20, 20⟩ 0 sample_id 4 (Invoked.ordinary 2)
    ⟨4, fun handle _ calls => ⟨handle, calls + 1, .error (Thrown.std_exception "failed")⟩⟩
    (Thrown.std_exception "failed") (by rfl) (by rfl) (by rfl) (by decide)

/-! ## Properties of the fault barrier and the client -/

/-- Writing a pack into a fresh buffer succeeds and produces the concatenation of the encodings
of its members. -/
theorem write_tuple_fresh (p : Pack) (args : p.type) :
    write_tuple p OutputBuffer.new args = .ok ⟨some (concat_encoded p args)⟩ := by
  have hwr := write_eq_wire (Shape.tuple p) args []
  simp only [wire, List.nil_append, write] at hwr
  rw [concat_encoded_eq]
  exact hwr

/-- Claim C14, amended. Fault barrier: `protected_call(m)` never lets an exception escape; it
returns the result of `m` when `m` returns normally, the integer value of the carried error
code when `m` throws a `std::system_error`, be it a `Jaw::Exception` (timed_out for
`TimeoutException`, not_connected for `ConnectionException`, result_out_of_range for a buffer
overrun, bad_message for an array-length mismatch) or any other, and state_not_recoverable
for every thrown value that is not a `std::system_error`. -/
theorem protected_call_codes :
    (∀ result : Int, protected_call (.ok result) = result) ∧
    (∀ (code : Errc) (detail : String),
      protected_call (.error (Thrown.jaw code detail)) = code.value) ∧
    protected_call (.error TimeoutException) = Errc.timed_out.value ∧
    (∀ detail : String,
      protected_call (.error (ConnectionException detail)) = Errc.not_connected.value) ∧
    (∀ (w : Nat) (buffer : InputBuffer) (size : Nat),
      match InputBuffer.read w buffer size with
      | .ok _ => True
      | .error e => protected_call (.error e) = Errc.result_out_of_range.value) ∧
    (∀ (value : Int) (what : String),
      protected_call (.error (Thrown.system_error value what)) = value) ∧
    (∀ what : String,
      protected_call (.error (Thrown.std_exception what)) = Errc.state_not_recoverable.value) ∧
    protected_call (.error Thrown.foreign) = Errc.state_not_recoverable.value := by
  refine ⟨fun _ => rfl, fun _ _ => rfl, rfl, fun _ => rfl, ?_, fun _ _ => rfl, fun _ => rfl, rfl⟩
  intro w buffer size
  unfold InputBuffer.read
  split_ifs <;> simp [protected_call]

/-- Counterexample to claim C14 as stated: a `std::system_error` that is not a `Jaw::Exception`
(code 11, as thrown when a thread cannot be started) is a thrown value other than a
`Jaw::Exception`, and `protected_call` returns 11 for it, not state_not_recoverable. -/
theorem system_error_code_returned :
    protected_call (.error (Thrown.system_error 11 "Resource temporarily unavailable")) = 11 ∧
    (11 : Int) ≠ Errc.state_not_recoverable.value := by
  decide

/-- Claim C15, the code at the failing input. The sample server answers a CREATE request with
`(0)` followed by its port 5555 as a 32-bit integer, eight bytes in all; `Client::create`
reads the port into an `unsigned short`, which consumes two bytes: the reply buffer is left
with its cursor at 6 of 8. -/
theorem callback_port_read_as_16_bits :
    (process_request 64 sample_config sample_server
        (InputBuffer.new (concat_encoded (request_pack Pack.nil) (sample_id, 0, (), ())) 20)
        0).reply = .ok ⟨some (int_bytes 4 0 ++ int_bytes 4 5555)⟩ ∧
    (Client.create 64 true true 0 (served 64 sample_config sample_server 0)
        (.ok sample_client) Pack.nil ()).map
      (fun created => (created.code, created.client.map (fun c => c.callback_port_),
        created.reply.map (fun b => (b.read_bytes_, b.max_bytes_)))) =
      some (0, some 5555, some (6, 8)) := by
  constructor
  · rfl
  · rfl

/-- Lookup after `callbacks_[id] = callback`. -/
theorem callbacks_find_assign {κ : Type} (m : List (Int × κ)) (id k : Int) (callback : κ) :
    callbacks_find (callbacks_assign m id callback) k =
      if k = id then some callback else callbacks_find m k := by
  induction m with
  | nil =>
    by_cases h : k = id
    · simp [callbacks_assign, callbacks_find, h]
    · simp [callbacks_assign, callbacks_find, h, Ne.symm h]
  | cons entry rest ih =>
    obtain ⟨k', cb⟩ := entry
    by_cases h1 : k' = id
    · subst h1
      by_cases h2 : k = k'
      · simp [callbacks_assign, callbacks_find, h2]
      · simp [callbacks_assign, callbacks_find, h2, Ne.symm h2]
    · by_cases h2 : k' = k
      · subst h2
        simp [callbacks_assign, callbacks_find, h1]
      · simp [callbacks_assign, callbacks_find, h1, h2, ih]

/-- Lookup after `callbacks_.erase(id)`. -/
theorem callbacks_find_erase {κ : Type} (m : List (Int × κ)) (id k : Int) :
    callbacks_find (callbacks_erase m id) k =
      if k = id then none else callbacks_find m k := by
  induction m with
  | nil => simp [callbacks_erase, callbacks_find]
  | cons entry rest ih =>
    obtain ⟨k', cb⟩ := entry
    by_cases h1 : k' = id
    · subst h1
      by_cases h2 : k = k'
      · subst h2
        simp [callbacks_erase, ih]
      · simp [callbacks_erase, callbacks_find, h2, Ne.symm h2, ih]
    · by_cases h2 : k' = k
      · subst h2
        simp [callbacks_erase, callbacks_find, h1]
      · simp [callbacks_erase, callbacks_find, h1, h2, ih]

/-- Claim C18. Callback registration semantics: for every callback map, command `id` and
callback `cb`, `CallbackMonitor::set_callback(id, cb)` returns 0, and afterwards the map has no
entry for `id` when `cb` is empty (whether or not one existed), maps `id` to `cb` when `cb` is
callable (replacing any previous callback), and every entry for another command is
unchanged. -/
theorem monitor_set_callback {κ : Type} (monitor : CallbackMonitor κ) (id : Int)
    (callback : Option κ) :
    (monitor.set_callback id callback).1 = 0 ∧
    ∀ k : Int, callbacks_find (monitor.set_callback id callback).2.callbacks_ k =
      if k = id then callback else callbacks_find monitor.callbacks_ k := by
  cases callback with
  | none => exact ⟨rfl, fun k => callbacks_find_erase _ _ _⟩
  | some callable => exact ⟨rfl, fun k => callbacks_find_assign _ _ _ _⟩

/-- A request for a non-null handle hands exactly one message to the socket: the encoding of the
identifier, the command and the input. -/
theorem request_sent {κ : Type} (w : Nat) (client : Client κ) (cmd : Int)
    (transport : Transport) (ip : Pack) (input : ip.type) (op : Pack) (output : op.type) :
    (Client.request w (some client) cmd transport ip input op output).sent =
      [⟨some (concat_encoded (request_pack ip) (client.identifier_, cmd, input, ()))⟩] := by
  simp only [Client.request, write_tuple_fresh]
  split
  · rfl
  · split
    · rfl
    · split <;> try rfl
      split <;> rfl

/-- Claim C19. Client destroy: for a null handle `Client::destroy` returns invalid_argument
without sending anything or deleting anything; for every non-null handle it sends the destroy
request and deletes the client whether or not the request succeeded, and returns the error
code of the request when that is non-zero, the code of the local cleanup otherwise. -/
theorem client_destroy {κ : Type} (w : Nat) (cmd : Int) (transport : Transport)
    (cleanup : Except Thrown Unit) :
    Client.destroy w (none : Option (Client κ)) cmd transport cleanup =
      ⟨Errc.invalid_argument.value, [], false⟩ ∧
    ∀ client : Client κ,
      (Client.destroy w (some client) cmd transport cleanup).sent =
        [⟨some (concat_encoded (request_pack Pack.nil) (client.identifier_, cmd, (), ()))⟩] ∧
      (Client.destroy w (some client) cmd transport cleanup).deleted = true ∧
      (Client.destroy w (some client) cmd transport cleanup).code =
        if (Client.request w (some client) cmd transport Pack.nil () Pack.nil ()).code ≠ 0 then
          (Client.request w (some client) cmd transport Pack.nil () Pack.nil ()).code
        else protected_call (cleanup.map (fun _ => 0)) := by
  refine ⟨rfl, fun client => ?_⟩
  have hsent := request_sent w client cmd transport Pack.nil () Pack.nil ()
  simp only [Client.destroy]
  split_ifs with h <;> simp [hsent]

/-- A read that runs over the end fails with result_out_of_range when the sum of cursor and
size does not wrap in the size type. -/
theorem read_overrun (w : Nat) (d : List Byte) (c m n : Nat) (h : c + n > m)
    (hw : c + n < 2 ^ w) :
    InputBuffer.read w ⟨d, c, m⟩ n =
      .error (Thrown.jaw Errc.result_out_of_range "Trying to access outside limits of buffer") := by
  have : (c + n) % 2 ^ w = c + n := Nat.mod_eq_of_lt hw
  simp [InputBuffer.read, this, h]

/-- Claim C20, the code at the failing input. With a 32-bit size type, a buffer of 24 bytes
with the cursor at 20 and `read(4294967280)`: the sum wraps to 4, the read succeeds and moves
the cursor back to 4. With a 64-bit size type, the cursor at 1 and `read(2 ^ 64 - 1)`: the
read succeeds and moves the cursor to 0. -/
theorem read_wraps_past_the_end :
    20 + 4294967280 > 24 ∧
    InputBuffer.read 32 ⟨List.replicate 24 0, 20, 24⟩ 4294967280 =
      .ok (20, ⟨List.replicate 24 0, 4, 24⟩) ∧
    1 + 18446744073709551615 > 24 ∧
    InputBuffer.read 64 ⟨List.replicate 24 0, 1, 24⟩ 18446744073709551615 =
      .ok (1, ⟨List.replicate 24 0, 0, 24⟩) := by
  decide

/-- Counterexample to claim C16 as stated: the request of a disabling `set_callback` times out,
and `set_callback` returns 0; the callback registered for the command is gone from the
monitor afterwards. -/
theorem disabling_hides_failed_request :
    (Client.request 64 (some sample_client_monitored) 2 timing_out
      (Pack.cons Shape.bool Pack.nil) (false, ()) Pack.nil ()).code = Errc.timed_out.value ∧
    sample_client_monitored.callback_monitor_ = some ⟨[(2, 100)]⟩ ∧
    (Client.set_callback 64 (some sample_client_monitored) 2 timing_out (.ok ())
      (none : Option Nat)).map (fun r => (r.code, r.client)) =
      some (0, some ⟨sample_id, 5555, some ⟨[]⟩⟩) := by
  refine ⟨?_, ?_, ?_⟩
  · rfl
  · rfl
  · rfl

/-- Claim C16, amended. A failed set_callback that enables reports failure: for every handle
and command, whenever the request that `set_callback` sends to the server fails or is
answered with a non-zero error code and the callback is callable, `set_callback` returns that
non-zero code; with an empty callback (disabling) the failure of the request is not reported:
the entry of the command is removed from the monitor, every other entry staying as it was,
and the value returned is that of the monitor's `set_callback`, zero. -/
theorem set_callback_reports_failure {κ : Type} (w : Nat) (client : Client κ) (cmd : Int)
    (transport : Transport) (built : Except Thrown Unit) (callable : κ)
    (hmade : (client.create_callback_monitor built).1 = 0)
    (hfail : (Client.request w (some (client.create_callback_monitor built).2) cmd transport
      (Pack.cons Shape.bool Pack.nil) (true, ()) Pack.nil ()).code ≠ 0) :
    (Client.set_callback w (some client) cmd transport built (some callable)).map
        (fun r => r.code) =
      some (Client.request w (some (client.create_callback_monitor built).2) cmd transport
        (Pack.cons Shape.bool Pack.nil) (true, ()) Pack.nil ()).code ∧
    ∀ monitor : CallbackMonitor κ,
      (client.create_callback_monitor built).2.callback_monitor_ = some monitor →
      ∃ updated : CallbackMonitor κ,
        (Client.set_callback w (some client) cmd transport built (none : Option κ)).map
          (fun r => (r.code, r.client)) =
          some (0, some ⟨(client.create_callback_monitor built).2.identifier_,
            (client.create_callback_monitor built).2.callback_port_, some updated⟩) ∧
        ∀ k : Int, callbacks_find updated.callbacks_ k =
          if k = cmd then none else callbacks_find monitor.callbacks_ k := by
  refine ⟨?_, ?_⟩
  · simp [Client.set_callback, hmade, hfail]
  · intro monitor hmon
    refine ⟨⟨callbacks_erase monitor.callbacks_ cmd⟩, ?_, fun k => callbacks_find_erase _ _ _⟩
    simp [Client.set_callback, hmade, hmon, CallbackMonitor.set_callback, protected_call]

/-- Witness for claim C16, amended: on a transport that times out, enabling returns timed_out,
and disabling returns 0 and leaves no callback for the command. -/
theorem set_callback_reports_failure_witness :
    (Client.set_callback 64 (some sample_client_monitored) 2 timing_out (.ok ())
        (some 200)).map (fun r => r.code) = some Errc.timed_out.value ∧
    callbacks_find [((2 : Int), (100 : Nat))] 2 = some 100 ∧
    ∃ updated : CallbackMonitor Nat,
      (Client.set_callback 64 (some sample_client_monitored) 2 timing_out (.ok ())
        (none : Option Nat)).map (fun r => (r.code, r.client)) =
        some (0, some ⟨sample_id, 5555, some updated⟩) ∧
      callbacks_find updated.callbacks_ 2 = none :=
  have reported := set_callback_reports_failure 64 sample_client_monitored 2 timing_out
    (.ok ()) 200 (by rfl) (by decide)
  ⟨reported.1, by rfl,
    (reported.2 ⟨[(2, 100)]⟩ rfl).elim fun updated h => ⟨updated, h.1, (h.2 2).trans (by rfl)⟩⟩

/-- Claim C17. The monitor is updated only when it should be: for every handle with a monitor,
the callback map of the monitor is updated for `cmd` (the callback registered for `cmd`
becomes the one passed, none when it is empty, every other entry staying as it was) if and
only if the server request succeeded or the callback is empty, and zero is returned then;
when a callable callback is passed and the request fails with code `e`, `set_callback`
returns `e` and the client, with its callback map, is unchanged. -/
theorem set_callback_updates_monitor {κ : Type} (w : Nat) (client : Client κ)
    (monitor : CallbackMonitor κ) (cmd : Int) (transport : Transport)
    (built : Except Thrown Unit) (callback : Option κ)
    (hmonitor : client.callback_monitor_ = some monitor) :
    ∃ (r : CallbackSet κ) (updated : CallbackMonitor κ),
      Client.set_callback w (some client) cmd transport built callback = some r ∧
      r.client = some ⟨client.identifier_, client.callback_port_, some updated⟩ ∧
      updated =
        (if (Client.request w (some client) cmd transport (Pack.cons Shape.bool Pack.nil)
              (callback.isSome, ()) Pack.nil ()).code = 0 ∨ callback.isNone = true
        then (monitor.set_callback cmd callback).2 else monitor) ∧
      (∀ k : Int, callbacks_find updated.callbacks_ k =
        if ((Client.request w (some client) cmd transport (Pack.cons Shape.bool Pack.nil)
              (callback.isSome, ()) Pack.nil ()).code = 0 ∨ callback.isNone = true) ∧ k = cmd
        then callback else callbacks_find monitor.callbacks_ k) ∧
      ((Client.request w (some client) cmd transport (Pack.cons Shape.bool Pack.nil)
          (callback.isSome, ()) Pack.nil ()).code = 0 ∨ callback.isNone = true → r.code = 0) ∧
      (callback.isSome = true →
        (Client.request w (some client) cmd transport (Pack.cons Shape.bool Pack.nil)
          (callback.isSome, ()) Pack.nil ()).code ≠ 0 →
        r.code = (Client.request w (some client) cmd transport (Pack.cons Shape.bool Pack.nil)
          (callback.isSome, ()) Pack.nil ()).code ∧
        r.client = some client) := by
  have hmade : client.create_callback_monitor built = (0, client) := by
    simp [Client.create_callback_monitor, hmonitor]
  have hset : Client.set_callback w (some client) cmd transport built callback =
      if (Client.request w (some client) cmd transport (Pack.cons Shape.bool Pack.nil)
          (callback.isSome, ()) Pack.nil ()).code = 0 ∨ callback.isNone = true then
        some (CallbackSet.mk (monitor.set_callback cmd callback).1
          (some (Client.mk client.identifier_ client.callback_port_
            (some (monitor.set_callback cmd callback).2)))
          (Client.request w (some client) cmd transport (Pack.cons Shape.bool Pack.nil)
            (callback.isSome, ()) Pack.nil ()).sent)
      else
        some (CallbackSet.mk
          (Client.request w (some client) cmd transport (Pack.cons Shape.bool Pack.nil)
            (callback.isSome, ()) Pack.nil ()).code
          (some client)
          (Client.request w (some client) cmd transport (Pack.cons Shape.bool Pack.nil)
            (callback.isSome, ()) Pack.nil ()).sent) := by
    simp only [Client.set_callback, hmade, hmonitor]
    simp
  have hlookup : ∀ k : Int, callbacks_find (monitor.set_callback cmd callback).2.callbacks_ k =
      if k = cmd then callback else callbacks_find monitor.callbacks_ k := by
    intro k
    cases callback with
    | none => exact callbacks_find_erase _ _ _
    | some callable => exact callbacks_find_assign _ _ _ _
  have hcode : (monitor.set_callback cmd callback).1 = 0 := by
    cases callback <;> rfl
  rw [hset]
  by_cases hcond : (Client.request w (some client) cmd transport (Pack.cons Shape.bool Pack.nil)
      (callback.isSome, ()) Pack.nil ()).code = 0 ∨ callback.isNone = true
  · rw [if_pos hcond]
    refine ⟨_, (monitor.set_callback cmd callback).2, rfl, rfl, by rw [if_pos hcond], ?_,
      fun _ => hcode, ?_⟩
    · intro k
      rw [hlookup k]
      by_cases hk : k = cmd
      · rw [if_pos hk, if_pos ⟨hcond, hk⟩]
      · rw [if_neg hk, if_neg (fun h => hk h.2)]
    · intro hsome hne
      rcases hcond with h | h
      · exact absurd h hne
      · cases callback <;> simp_all
  · rw [if_neg hcond]
    refine ⟨_, monitor, rfl, ?_, by rw [if_neg hcond], ?_, fun h => absurd h hcond, ?_⟩
    · simp only [← hmonitor]
    · intro k
      rw [if_neg (fun h => hcond h.1)]
    · intro _ _
      exact ⟨rfl, rfl⟩

/-- Witness for claim C17, on the client whose monitor holds callback 100 for command 2:
enabling on a transport that times out returns timed_out and leaves the callback 100;
enabling on a transport that answers `(0)` returns 0 and registers the new callback;
disabling removes the callback of the command, on a transport that times out and on one that
answers `(0)`. -/
theorem set_callback_updates_monitor_witness :
    (∃ (r : CallbackSet Nat) (updated : CallbackMonitor Nat),
      Client.set_callback 64 (some sample_client_monitored) 2 timing_out (.ok ())
        (some 200) = some r ∧
      r.client = some ⟨sample_id, 5555, some updated⟩ ∧
      callbacks_find updated.callbacks_ 2 = some 100 ∧ r.code = Errc.timed_out.value ∧
      r.client = some sample_client_monitored) ∧
    (∃ (r : CallbackSet Nat) (updated : CallbackMonitor Nat),
      Client.set_callback 64 (some sample_client_monitored) 2
        (replying (int_bytes 4 0)) (.ok ()) (some 200) = some r ∧
      r.client = some ⟨sample_id, 5555, some updated⟩ ∧
      callbacks_find updated.callbacks_ 2 = some 200 ∧ r.code = 0) ∧
    (∃ (r : CallbackSet Nat) (updated : CallbackMonitor Nat),
      Client.set_callback 64 (some sample_client_monitored) 2 timing_out (.ok ())
        (none : Option Nat) = some r ∧
      r.client = some ⟨sample_id, 5555, some updated⟩ ∧
      callbacks_find updated.callbacks_ 2 = none ∧ r.code = 0) ∧
    (∃ (r : CallbackSet Nat) (updated : CallbackMonitor Nat),
      Client.set_callback 64 (some sample_client_monitored) 2
        (replying (int_bytes 4 0)) (.ok ()) (none : Option Nat) = some r ∧
      r.client = some ⟨sample_id, 5555, some updated⟩ ∧
      callbacks_find updated.callbacks_ 2 = none ∧ r.code = 0) :=
  have failed := set_callback_updates_monitor 64 sample_client_monitored ⟨[(2, 100)]⟩ 2
    timing_out (.ok ()) (some 200) rfl
  have done := set_callback_updates_monitor 64 sample_client_monitored ⟨[(2, 100)]⟩ 2
    (replying (int_bytes 4 0)) (.ok ()) (some 200) rfl
  have dropped := set_callback_updates_monitor 64 sample_client_monitored ⟨[(2, 100)]⟩ 2
    timing_out (.ok ()) (none : Option Nat) rfl
  have cleared := set_callback_updates_monitor 64 sample_client_monitored ⟨[(2, 100)]⟩ 2
    (replying (int_bytes 4 0)) (.ok ()) (none : Option Nat) rfl
  ⟨failed.elim fun r h => h.elim fun updated h =>
      ⟨r, updated, h.1, h.2.1, (h.2.2.2.1 2).trans (by rfl),
        (h.2.2.2.2.2 rfl (by decide)).1, (h.2.2.2.2.2 rfl (by decide)).2⟩,
    done.elim fun r h => h.elim fun updated h =>
      ⟨r, updated, h.1, h.2.1, (h.2.2.2.1 2).trans (by rfl), h.2.2.2.2.1 (by decide)⟩,
    dropped.elim fun r h => h.elim fun updated h =>
      ⟨r, updated, h.1, h.2.1, (h.2.2.2.1 2).trans (by rfl), h.2.2.2.2.1 (by decide)⟩,
    cleared.elim fun r h => h.elim fun updated h =>
      ⟨r, updated, h.1, h.2.1, (h.2.2.2.1 2).trans (by rfl), h.2.2.2.2.1 (by decide)⟩⟩

/-! ## Properties of fixed arrays, the output buffer and sequence decoding -/

theorem length_array_bytes (size : Nat) (value : List Int) :
    (array_bytes size value).length = value.length * size := by
  induction value with
  | nil => simp [array_bytes]
  | cons x rest ih => simp [array_bytes, length_int_bytes, ih, Nat.add_mul, Nat.add_comm]

theorem array_of_bytes_array_bytes (signed : Bool) (size : Nat) (hsize : 0 < size)
    (value : List Int) (hvalue : ∀ x ∈ value, in_range signed size x = true) :
    array_of_bytes signed size value.length (array_bytes size value) = value := by
  induction value with
  | nil => simp [array_of_bytes]
  | cons x rest ih =>
    have hx := static_cast_int_of_in_range signed size x hsize (hvalue x (List.mem_cons_self _ _))
    have ht : (int_bytes size x ++ array_bytes size rest).take size = int_bytes size x := by
      rw [List.take_append_of_le_length (by simp [length_int_bytes])]
      exact List.take_of_length_le (by simp [length_int_bytes])
    have hd : (int_bytes size x ++ array_bytes size rest).drop size = array_bytes size rest := by
      rw [List.drop_append_of_le_length (by simp [length_int_bytes])]
      simp [List.drop_of_length_le, length_int_bytes]
    simp only [List.length_cons, array_of_bytes, array_bytes, ht, hd, int_of_bytes_int_bytes, hx,
      ih (fun y hy => hvalue y (List.mem_cons_of_mem _ hy))]

theorem write_array_eq (size : Nat) (value : List Int) (acc : List Byte) :
    write_array size ⟨some acc⟩ value =
      .ok ⟨some (acc ++ int_bytes 4 value.length ++ array_bytes size value)⟩ := by
  cases value with
  | nil => simp [write_array, write_fundamental, OutputBuffer.write, array_bytes]
  | cons x rest => simp [write_array, write_fundamental, OutputBuffer.write]

theorem two_pow_31_le (w : Nat) (hw : 32 ≤ w) : (2 : Int) ^ 31 ≤ 2 ^ (w - 1) :=
  pow_le_pow_right₀ (by norm_num) (by omega)

theorem two_pow_split (w : Nat) (hw : 32 ≤ w) : (2 : Int) ^ w = 2 * 2 ^ (w - 1) := by
  have : w = (w - 1) + 1 := by omega
  conv_lhs => rw [this, pow_succ]
  ring

/-- The conversion of a 32-bit length to the size type equals an array bound below half the
range of the size type only if the two are the same integer. -/
theorem length_converted_eq (w : Nat) (hw : 32 ≤ w) (L : Int) (M : Nat)
    (hL : in_range true 4 L = true) (hM : (M : Int) < 2 ^ (w - 1)) :
    L % 2 ^ w = M ↔ (M : Int) = L := by
  simp only [in_range, ↓reduceIte, decide_eq_true_eq] at hL
  norm_num at hL
  have h31 := two_pow_31_le w hw
  have hsp := two_pow_split w hw
  norm_num at h31
  rw [hsp]
  generalize (2 : Int) ^ (w - 1) = P at *
  by_cases hneg : 0 ≤ L
  · rw [Int.emod_eq_of_lt hneg (by omega)]
    exact eq_comm
  · have : L % (2 * P) = L + 2 * P := by
      have e : L % (2 * P) = (L + 2 * P) % (2 * P) := by simp
      rw [e]
      exact Int.emod_eq_of_lt (by omega) (by omega)
    rw [this]
    constructor <;> intro h <;> omega

theorem read_array_ok (w : Nat) (hw : 32 ≤ w) (signed : Bool) (size : Nat) (hsize : 0 < size)
    (value : List Int) (hvalue : ∀ x ∈ value, in_range signed size x = true)
    (hN : value.length < 2 ^ 31) (data pre post : List Byte)
    (hd : data = pre ++ (int_bytes 4 value.length ++ array_bytes size value) ++ post)
    (hlen : data.length < 2 ^ w) :
    read_array w signed size value.length ⟨data, pre.length, data.length⟩ =
      .ok (value, ⟨data, pre.length + (4 + value.length * size), data.length⟩) := by
  have hrange := length_nat_cast_in_range value.length hN
  have hcast := static_cast_int_of_in_range true 4 (value.length : Int) (by norm_num) hrange
  have hP : ((value.length : Nat) : Int) < 2 ^ (w - 1) := by
    have := two_pow_31_le w hw
    have : ((value.length : Nat) : Int) < 2 ^ 31 := by exact_mod_cast hN
    omega
  have hconv := (length_converted_eq w hw (value.length : Int) value.length hrange hP).2 rfl
  have hfit : pre.length + 4 + size * value.length ≤ data.length := by
    rw [hd]; simp [length_int_bytes, length_array_bytes, Nat.mul_comm]; omega
  simp only [read_array]
  rw [read_fundamental_ok w true 4 (value.length : Int) data pre
    (array_bytes size value ++ post) pre.length rfl (by rw [hd]; simp) hlen]
  simp only [hcast, hconv, ↓reduceIte]
  rw [read_ok w data (pre.length + 4) data.length (size * value.length) hfit hlen]
  have hp := peek_mid (pre ++ int_bytes 4 value.length) (array_bytes size value) post
    (pre.length + 4 + size * value.length) data.length
  simp only [List.length_append, length_int_bytes, length_array_bytes] at hp
  rw [Nat.mul_comm] at hp
  have hd' : data = pre ++ int_bytes 4 ↑value.length ++ array_bytes size value ++ post := by
    rw [hd]; simp
  rw [← hd'] at hp
  simp only [InputBuffer.peek] at hp ⊢
  rw [Nat.mul_comm size value.length, hp,
    array_of_bytes_array_bytes signed size hsize value hvalue]
  simp [Nat.add_assoc]

theorem read_array_mismatch (w : Nat) (hw : 32 ≤ w) (signed : Bool) (size : Nat)
    (L : Int) (M : Nat) (hL : in_range true 4 L = true) (hne : (M : Int) ≠ L)
    (hM : (M : Int) < 2 ^ (w - 1)) (data pre post : List Byte)
    (hd : data = pre ++ int_bytes 4 L ++ post) (hlen : data.length < 2 ^ w) :
    read_array w signed size M ⟨data, pre.length, data.length⟩ =
      .error (Thrown.jaw Errc.bad_message "Received array with unexpected size") := by
  have hcast := static_cast_int_of_in_range true 4 L (by norm_num) hL
  have hconv : ¬ L % 2 ^ w = M := fun h => hne ((length_converted_eq w hw L M hL hM).1 h)
  simp only [read_array]
  rw [read_fundamental_ok w true 4 L data pre post pre.length rfl hd hlen]
  simp only [hcast, hconv, ↓reduceIte]

/-- Claim C21. Fixed-array shape: for every array of `N` elements (`N` below `2 ^ 31`, the
bound of the 32-bit template argument) of a fixed-width integer type of `size` bytes, `write`
appends the 32-bit integer `N` followed by exactly `N * size` raw bytes; reading those bytes
into an array of `N` elements returns the same elements and moves the cursor past them; and
reading into an array of `M` elements, `M` different from the encoded prefix, fails with
bad_message. -/
theorem array_codec (w : Nat) (signed : Bool) (size : Nat) (value : List Int)
    (hw : 32 ≤ w) (hsize : 0 < size) (hvalue : ∀ x ∈ value, in_range signed size x = true)
    (hN : value.length < 2 ^ 31) :
    (∀ acc : List Byte, write_array size ⟨some acc⟩ value =
      .ok ⟨some (acc ++ int_bytes 4 value.length ++ array_bytes size value)⟩) ∧
    (array_bytes size value).length = value.length * size ∧
    (∀ data pre post : List Byte,
      data = pre ++ (int_bytes 4 value.length ++ array_bytes size value) ++ post →
      data.length < 2 ^ w →
      read_array w signed size value.length ⟨data, pre.length, data.length⟩ =
        .ok (value, ⟨data, pre.length + (4 + value.length * size), data.length⟩)) ∧
    (∀ (L : Int) (M : Nat) (data pre post : List Byte), in_range true 4 L = true →
      (M : Int) ≠ L → (M : Int) < 2 ^ (w - 1) → data = pre ++ int_bytes 4 L ++ post →
      data.length < 2 ^ w →
      read_array w signed size M ⟨data, pre.length, data.length⟩ =
        .error (Thrown.jaw Errc.bad_message "Received array with unexpected size")) :=
  ⟨write_array_eq size value, length_array_bytes size value,
    fun data pre post hd hlen =>
      read_array_ok w hw signed size hsize value hvalue hN data pre post hd hlen,
    fun L M data pre post hL hne hM hd hlen =>
      read_array_mismatch w hw signed size L M hL hne hM data pre post hd hlen⟩

/-- Witness for claim C21: an array of three 16-bit integers on a 64-bit size type. -/
theorem array_codec_witness :
    write_array 2 OutputBuffer.new [1, -2, 3] =
      .ok ⟨some [3, 0, 0, 0, 1, 0, 254, 255, 3, 0]⟩ ∧
    read_array 64 true 2 3 (InputBuffer.new [3, 0, 0, 0, 1, 0, 254, 255, 3, 0] 10) =
      .ok ([1, -2, 3], ⟨[3, 0, 0, 0, 1, 0, 254, 255, 3, 0], 10, 10⟩) ∧
    read_array 64 true 2 2 (InputBuffer.new [3, 0, 0, 0, 1, 0, 254, 255, 3, 0] 10) =
      .error (Thrown.jaw Errc.bad_message "Received array with unexpected size") := by
  have h := array_codec 64 true 2 [1, -2, 3] (by decide) (by decide) (by decide) (by decide)
  refine ⟨h.1 [], ?_, ?_⟩
  · exact h.2.2.1 [3, 0, 0, 0, 1, 0, 254, 255, 3, 0] [] [] (by decide) (by decide)
  · exact h.2.2.2 3 2 [3, 0, 0, 0, 1, 0, 254, 255, 3, 0] [] [1, 0, 254, 255, 3, 0]
      (by decide) (by decide)
      (by norm_num) (by decide) (by decide)

theorem write_all_eq (sources : List (List Byte)) :
    ∀ data : List Byte,
      OutputBuffer.write_all ⟨some data⟩ sources = .ok ⟨some (data ++ sources.flatten)⟩ := by
  induction sources with
  | nil => intro data; simp [OutputBuffer.write_all]
  | cons source rest ih =>
    intro data
    simp [OutputBuffer.write_all, OutputBuffer.write, ih]

/-- Claim C22. Output-buffer lifecycle: on a buffer that has not been released, holding
`data`, `write(source, n)` succeeds and the contents become `data` followed by exactly the
bytes of `source`; a fresh buffer after any sequence of writes holds the written bytes in
order; `release()` returns exactly the bytes written so far; and every write after the release
fails with operation_not_permitted (no buffer, hence no byte, is produced). -/
theorem output_buffer_lifecycle (data source : List Byte) (sources : List (List Byte))
    (buffer : OutputBuffer) :
    OutputBuffer.write ⟨some data⟩ source = .ok ⟨some (data ++ source)⟩ ∧
    OutputBuffer.write_all OutputBuffer.new sources = .ok ⟨some sources.flatten⟩ ∧
    (OutputBuffer.release ⟨some data⟩).1 = some data ∧
    OutputBuffer.write (OutputBuffer.release buffer).2 source =
      .error (Thrown.jaw Errc.operation_not_permitted
        "Can't write to buffer after conversion to zmq::message_t") ∧
    OutputBuffer.write_all (OutputBuffer.release buffer).2 (source :: sources) =
      .error (Thrown.jaw Errc.operation_not_permitted
        "Can't write to buffer after conversion to zmq::message_t") := by
  refine ⟨rfl, ?_, rfl, rfl, rfl⟩
  simpa [OutputBuffer.new] using write_all_eq sources []

/-- A vector of `2 ^ 31` octets is written without error, and reading the produced bytes into
any destination throws. -/
theorem read_into_fails_of_long (v : List Int) (hlen : v.length = 2 ^ 31)
    (hall : ∀ x ∈ v, x = 0) (d : List Int) :
    Shape.valid (Shape.seq (Shape.int false 1)) v = true ∧
    write (Shape.seq (Shape.int false 1)) OutputBuffer.new v =
      .ok ⟨some (encoded (Shape.seq (Shape.int false 1)) v)⟩ ∧
    (encoded (Shape.seq (Shape.int false 1)) v).length < 2 ^ 64 ∧
    read 64 (Shape.seq (Shape.int false 1))
      (InputBuffer.new (encoded (Shape.seq (Shape.int false 1)) v)
        (encoded (Shape.seq (Shape.int false 1)) v).length) d =
      .error (Thrown.std_exception "reserve") := by
  have hlong := roundtrip_fails_of_long v hlen hall
  refine ⟨hlong.1, hlong.2.1, hlong.2.2.1, ?_⟩
  rw [encoded_eq_wire]
  have h := read_long_vector v hlen [] (by simp) d
  simpa [InputBuffer.new] using h

/-- Counterexample to claim C29 as stated: the sequence of `2 ^ 31` octets is encoded without
error, and reading its encoding into a destination that holds `[1, 2]` does not leave the
destination holding `[1, 2]` followed by the sequence: the length prefix is the 32-bit integer
`-2 ^ 31` and the read throws. -/
theorem long_sequence_not_appended :
    Shape.valid (Shape.seq (Shape.int false 1)) (List.replicate (2 ^ 31) (0 : Int)) = true ∧
    write (Shape.seq (Shape.int false 1)) OutputBuffer.new (List.replicate (2 ^ 31) (0 : Int)) =
      .ok ⟨some (encoded (Shape.seq (Shape.int false 1)) (List.replicate (2 ^ 31) (0 : Int)))⟩ ∧
    (encoded (Shape.seq (Shape.int false 1)) (List.replicate (2 ^ 31) (0 : Int))).length < 2 ^ 64 ∧
    read 64 (Shape.seq (Shape.int false 1))
      (InputBuffer.new (encoded (Shape.seq (Shape.int false 1)) (List.replicate (2 ^ 31) (0 : Int)))
        (encoded (Shape.seq (Shape.int false 1)) (List.replicate (2 ^ 31) (0 : Int))).length)
      [1, 2] =
      .error (Thrown.std_exception "reserve") :=
  read_into_fails_of_long (List.replicate (2 ^ 31) (0 : Int)) (List.length_replicate _ _)
    (fun _ hx => List.eq_of_mem_replicate hx) [1, 2]

/-- Claim C29, amended. Sequence decoding appends: for every encoded sequence `s` of valid
elements in which every sequence, `s` and those inside its elements at any depth, has fewer
than `2 ^ 31` elements, and every destination container that already holds the elements `d`,
reading the sequence into that destination succeeds and leaves it holding `d` followed by the
elements of `s`, the cursor past the encoding; so the destination holds exactly `s` afterwards
only when it started empty. -/
theorem sequence_read_appends (w : Nat) (elem : Shape) (s d : List elem.type)
    (hv : (Shape.seq elem).valid s = true) (hs : (Shape.seq elem).short s = true)
    (data pre post : List Byte) (hd : data = pre ++ wire (Shape.seq elem) s ++ post)
    (hw : data.length < 2 ^ w) :
    read w (Shape.seq elem) ⟨data, pre.length, data.length⟩ d =
      .ok (d ++ s, ⟨data, pre.length + (wire (Shape.seq elem) s).length, data.length⟩) ∧
    (d ++ s = s ↔ d = []) := by
  refine ⟨?_, by simp⟩
  simp only [Shape.valid, List.all_eq_true] at hv
  simp only [Shape.short, Bool.and_eq_true, decide_eq_true_eq, List.all_eq_true] at hs
  simp only [wire] at hd
  simp only [read, wire, read_iterable]
  rw [read_fundamental_ok w true 4 (static_cast_int true 4 (s.length : Int)) data pre
    (wire_each (wire elem) s ++ post) pre.length rfl (by rw [hd]; simp) hw]
  have hl := static_cast_int_of_in_range true 4 (s.length : Int) (by norm_num)
    (length_nat_cast_in_range s.length hs.1)
  simp only [hl]
  have hneg : ¬ ((s.length : Int) < 0) := by omega
  simp only [hneg, ↓reduceIte, Int.toNat_ofNat]
  rw [read_each_ok _ (wire elem) data s
    (fun x hx pre' post' c' hc' hd' =>
      read_eq_value w elem x (hv x hx) (hs.2 x hx) data pre' post' c' hc' hd' hw)
    d (pre ++ int_bytes 4 (s.length : Int)) post (pre.length + 4)
    (by simp [length_int_bytes]) (by rw [hd, hl]; simp)]
  simp [length_int_bytes, Nat.add_assoc]

/-- Witness for claim C29, amended: the sequence `[3, 4]` of 16-bit integers read into a destination
that holds `[1, 2]`. -/
theorem sequence_read_appends_witness :
    read 64 (Shape.seq (Shape.int true 2))
      ⟨[2, 0, 0, 0, 3, 0, 4, 0], 0, 8⟩ [1, 2] =
      .ok ([1, 2, 3, 4], ⟨[2, 0, 0, 0, 3, 0, 4, 0], 8, 8⟩) ∧
    (([1, 2] : List Int) ++ [3, 4] = [3, 4] ↔ ([1, 2] : List Int) = []) :=
  sequence_read_appends 64 (Shape.int true 2) [3, 4] [1, 2] (by decide) (by decide)
    [2, 0, 0, 0, 3, 0, 4, 0] [] [] (by decide) (by decide)

/-- A read whose size makes the sum with the cursor pass the range of the size type succeeds
when the wrapped sum is within the buffer, and moves the cursor to the wrapped sum. -/
theorem read_wrapped (w : Nat) (d : List Byte) (c m n : Nat) (h : 2 ^ w ≤ c + n)
    (hc : c < 2 ^ w) (hn : n < 2 ^ w) (hm : c + n - 2 ^ w ≤ m) :
    InputBuffer.read w ⟨d, c, m⟩ n = .ok (c, ⟨d, c + n - 2 ^ w, m⟩) := by
  have : (c + n) % 2 ^ w = c + n - 2 ^ w := by
    rw [Nat.mod_eq_sub_mod h]
    exact Nat.mod_eq_of_lt (by omega)
  simp [InputBuffer.read, this]
  omega

/-- Claim C28, the code at the failing input. On a 64-bit size type, a buffer of 8 bytes read
to its end accepts a read of `2 ^ 64 - 4` bytes: the sum of cursor and size wraps to 4, the
check passes, and the cursor moves back to 4, although cursor plus size exceeds the buffer. -/
theorem bounds_check_bypassed :
    InputBuffer.read 64 ⟨[1, 2, 3, 4, 5, 6, 7, 8], 8, 8⟩ (2 ^ 64 - 4) =
      .ok (8, ⟨[1, 2, 3, 4, 5, 6, 7, 8], 4, 8⟩) ∧
    8 + (2 ^ 64 - 4) > 8 ∧ 2 ^ 64 - 4 < 2 ^ 64 := by
  decide

/-! ## Properties of the socket address -/

/-- Claim C23, the code at the failing input. The address `tcp://:5555` has a scheme, an empty
host and a port. The requester rejects it as missing its port and the replier appends a second
port to it, whereas the same host and port given without a scheme are accepted. -/
theorem empty_host_port_missed :
    string_find "tcp://:5555" "://" 0 = some 3 ∧
    string_find "tcp://:5555" ":" (3 + 3) = some 6 ∧
    string_find "tcp://:5555" ":" (3 + 4) = none ∧
    Socket.Impl.new "tcp://:5555" ZmqType.ZMQ_REQ =
      .error (Thrown.jaw Errc.invalid_argument "Missing port in address") ∧
    Socket.Impl.new "tcp://:5555" ZmqType.ZMQ_SUB =
      .error (Thrown.jaw Errc.invalid_argument "Missing port in address") ∧
    Socket.Impl.new "tcp://:5555" ZmqType.ZMQ_REP = .ok "tcp://:5555:*" ∧
    Socket.Impl.new "tcp://:5555" ZmqType.ZMQ_PUB = .ok "tcp://:5555:*" ∧
    Socket.Impl.new ":5555" ZmqType.ZMQ_REQ = .ok "tcp://:5555" ∧
    Socket.Impl.new "tcp://a:5555" ZmqType.ZMQ_REQ = .ok "tcp://a:5555" := by
  decide

/-! ## Properties of the dispatch order and of truncated requests -/

/-- The loop over the ordinary tasks stops at the first task bound to the command: the task it
returns is in the list at the position returned, and no earlier task has the command. -/
theorem first_task_some {σ : Type} (cmd : Int) (l : List (Task σ)) :
    (∃ t ∈ l, t.cmd = cmd) → ∀ i, ∃ (k : Nat) (task : Task σ),
      first_task cmd l i = some (i + k, task) ∧ l[k]? = some task ∧ task.cmd = cmd ∧
      ∀ j < k, ∀ t, l[j]? = some t → t.cmd ≠ cmd := by
  induction l with
  | nil => intro h; simp at h
  | cons head rest ih =>
    intro h i
    by_cases hc : cmd = head.cmd
    · exact ⟨0, head, by simp [first_task, hc], by simp, hc.symm, by simp⟩
    · have hrest : ∃ t ∈ rest, t.cmd = cmd := by
        obtain ⟨t, ht, htc⟩ := h
        rcases List.mem_cons.1 ht with rfl | ht'
        · exact absurd htc.symm hc
        · exact ⟨t, ht', htc⟩
      obtain ⟨k, task, hf, hget, hcmd, hbefore⟩ := ih hrest (i + 1)
      refine ⟨k + 1, task, ?_, by simpa using hget, hcmd, ?_⟩
      · simp only [first_task, hc, ↓reduceIte, hf]
        congr 2
        omega
      · intro j hj t ht
        cases j with
        | zero =>
          simp at ht
          subst ht
          exact fun e => hc e.symm
        | succ j => exact hbefore j (by omega) t (by simpa using ht)

/-- Claim C24. Ordinary tasks are tried in configuration order and before create/destroy: for
an identifier with a present handle value and a command that occurs in the ordinary task list,
`process_request` calls exactly the first task of the list bound to the command, once, and
nothing else; the reply that task returns is the reply of `process_request` unchanged; the
entry of the identifier stays in the map with the handle as the task left it, also when the
command is the create or the destroy command. -/
theorem ordinary_task_first {σ : Type} (w : Nat) (cfg : Config σ) (srv : Server)
    (request rest : InputBuffer) (world : σ) (identifier : Guid) (cmd : Int) (handle : Handle)
    (hreq : read_tuple w request_head request (Pack.default request_head) =
      .ok ((identifier, cmd, ()), rest))
    (hpresent : map_find srv.handles_ identifier = some handle) (hvalue : handle.value ≠ 0)
    (hcmd : ∃ t ∈ cfg.task_list, t.cmd = cmd) :
    ∃ (index : Nat) (task : Task σ),
      cfg.task_list[index]? = some task ∧ task.cmd = cmd ∧
      (∀ j < index, ∀ t, cfg.task_list[j]? = some t → t.cmd ≠ cmd) ∧
      (process_request w cfg srv request world).invoked = [Invoked.ordinary index] ∧
      (process_request w cfg srv request world).world = (task.execute handle rest world).world ∧
      (process_request w cfg srv request world).server =
        ⟨srv.callback_port_,
          map_assign srv.handles_ identifier (task.execute handle rest world).handle⟩ ∧
      map_find (process_request w cfg srv request world).server.handles_ identifier =
        some (task.execute handle rest world).handle ∧
      ∀ reply, (task.execute handle rest world).reply = .ok reply →
        (process_request w cfg srv request world).reply = .ok reply := by
  obtain ⟨index, task, hfirst, hget, htask, hbefore⟩ := first_task_some cmd cfg.task_list hcmd 0
  rw [Nat.zero_add] at hfirst
  refine ⟨index, task, hget, htask, hbefore, ?_⟩
  have hidx := map_index_of_present srv.handles_ identifier handle hpresent
  cases hrun : (task.execute handle rest world).reply with
  | ok reply =>
    simp [process_request, process_request_try, hreq, hidx, hpresent, hvalue, hfirst, hrun,
      Except.map, map_find_assign_self srv.handles_ identifier handle _ hpresent]
  | error e =>
    cases e <;>
      simp [process_request, process_request_try, hreq, hidx, hpresent, hvalue, hfirst, hrun,
        Except.map, map_find_assign_self srv.handles_ identifier handle _ hpresent]

/-- Witness for claim C24: in the configuration whose second ordinary task is bound to the
destroy command, a destroy request for the live session runs that task and the session
stays. -/
theorem ordinary_task_first_witness :
    ∃ (index : Nat) (task : Task Nat),
      shadowed_config.task_list[index]? = some task ∧ task.cmd = 1 ∧
      (∀ j < index, ∀ t, shadowed_config.task_list[j]? = some t → t.cmd ≠ 1) ∧
      (process_request 64 shadowed_config sample_server_live (sample_request 1) 0).invoked =
        [Invoked.ordinary index] ∧
      (process_request 64 shadowed_config sample_server_live (sample_request 1) 0).world =
        (task.execute ⟨7, some sample_id.to_string⟩ ⟨(sample_request 1).data_, 20, 20⟩ 0).world ∧
      (process_request 64 shadowed_config sample_server_live (sample_request 1) 0).server =
        ⟨sample_server_live.callback_port_,
          map_assign sample_server_live.handles_ sample_id
            (task.execute ⟨7, some sample_id.to_string⟩
              ⟨(sample_request 1).data_, 20, 20⟩ 0).handle⟩ ∧
      map_find (process_request 64 shadowed_config sample_server_live
          (sample_request 1) 0).server.handles_ sample_id =
        some (task.execute ⟨7, some sample_id.to_string⟩
          ⟨(sample_request 1).data_, 20, 20⟩ 0).handle ∧
      ∀ reply, (task.execute ⟨7, some sample_id.to_string⟩
          ⟨(sample_request 1).data_, 20, 20⟩ 0).reply = .ok reply →
        (process_request 64 shadowed_config sample_server_live (sample_request 1) 0).reply =
          .ok reply :=
  ordinary_task_first 64 shadowed_config sample_server_live (sample_request 1)
    ⟨(sample_request 1).data_, 20, 20⟩ 0 sample_id 1 ⟨7, some sample_id.to_string⟩
    (by rfl) (by rfl) (by decide)
    ⟨⟨1, fun handle _ calls => ⟨handle, calls + 1, write (Shape.int true 4) OutputBuffer.new 0⟩⟩,
      by simp [shadowed_config], rfl⟩

/-- Claim C30. Truncated requests are answered, not dropped: for every request buffer shorter
than 20 bytes, `process_request` returns a reply that is exactly the 32-bit code
state_not_recoverable, calls no task procedure, and leaves the server with its handle map, and
everything outside the server, unchanged. -/
theorem truncated_request_answered {σ : Type} (w : Nat) (cfg : Config σ) (srv : Server)
    (data : List Byte) (size : Nat) (world : σ) (hw : 5 ≤ w) (hsize : size < 20) :
    process_request w cfg srv (InputBuffer.new data size) world =
      ⟨srv, world, [], .ok ⟨some (int_bytes 4 Errc.state_not_recoverable.value)⟩⟩ := by
  have h32 : 2 ^ 5 ≤ 2 ^ w := Nat.pow_le_pow_right (by norm_num) hw
  have h16 : (0 + 16) % 2 ^ w = 16 := Nat.mod_eq_of_lt (by omega)
  have h20 : (16 + 4) % 2 ^ w = 20 := Nat.mod_eq_of_lt (by omega)
  by_cases hshort : 16 > size
  · simp [process_request, process_request_try, read_tuple, request_head, read,
      InputBuffer.read, InputBuffer.new, h16, hshort, reply_code_eq]
  · have h4 : 20 > size := hsize
    simp [process_request, process_request_try, read_tuple, request_head, read,
      read_fundamental, InputBuffer.read, InputBuffer.new, h16, h20, hshort, h4, reply_code_eq]

/-- Witness for claim C30: a request of the 16 bytes of an identifier and two further bytes,
on a 64-bit size type. -/
theorem truncated_request_answered_witness :
    process_request 64 sample_config sample_server_live
      (InputBuffer.new (sample_id.bytes_ ++ [2, 0]) 18) 0 =
      ⟨sample_server_live, 0, [], .ok ⟨some (int_bytes 4 Errc.state_not_recoverable.value)⟩⟩ :=
  truncated_request_answered 64 sample_config sample_server_live (sample_id.bytes_ ++ [2, 0]) 18
    0 (by decide) (by decide)

/-! ## Properties of the camera protocol -/

/-- The product is rounded to a `float` before `std::round`: five times the `float` nearest to
0.7 is just below 3.5 as a real number, the `float` product is 3.5, and the value is 4. -/
theorem product_rounded_in_float :
    nearest_float 7 10 = ⟨11744051, 16777216⟩ ∧
    nearest_float (5 * 11744051) 16777216 = ⟨14680064, 4194304⟩ ∧
    round_product 5 ⟨11744051, 16777216⟩ = 4 := by
  decide

/-- Claim C25, the code at the failing input. The image of one pixel followed by the integer 7
is written as 25 bytes; reading an image and an integer from these bytes leaves the cursor at
24, one byte short of the end, and the integer read is 1962, made of the pixel and the first
three bytes of the 7. -/
theorem image_read_leaves_pixels_unread :
    write_image [170] OutputBuffer.new pixel_image one_int (7, ()) =
      some (.ok ⟨some pixel_message⟩) ∧
    pixel_message.length = 25 ∧
    read_image 64 (InputBuffer.new pixel_message 25) blank_image one_int (0, ()) =
      .ok (⟨0, 1, 1, 1, 1, 20⟩, (1962, ()), ⟨pixel_message, 24, 25⟩) :=
  ⟨by decide, by decide, by rfl⟩

/-- Claim C26, the code at the failing input. A buffer of 20 bytes that ends after the
meta-data of an image declaring 1000 bytes is read without error: the image returned has
`data` at the end of the buffer and `data_size` 1000, a region that is not inside the
buffer. -/
theorem image_read_accepts_missing_pixels :
    header_only_message.length = 20 ∧
    read_image 64 (InputBuffer.new header_only_message 20) blank_image Pack.nil () =
      .ok (⟨0, 1, 1, 1, 1000, 20⟩, (), ⟨header_only_message, 20, 20⟩) ∧
    region header_only_message 20 1000 = none := by
  decide

/-- Claim C27, the code at the failing input. Cropping the image 2 wide and 4 high to the left
half of its width and its whole height should give 4 rows of 1 pixel; the height written is 1,
the rounded product of the image width and the crop width, and one row follows. Cropping the
image 4 wide and 2 high to the upper half of its height takes 4 as the height and copies rows
that are outside the image. -/
theorem cropped_height_taken_from_width :
    round_product tall_image.width left_half.width = 1 ∧
    round_product tall_image.height left_half.height = 4 ∧
    write_image_crop tall_memory OutputBuffer.new tall_image left_half Pack.nil () =
      some (.ok ⟨some ([0, 0, 0, 0, 1, 0, 0, 0, 1, 0, 0, 0, 1, 0, 0, 0, 1, 0, 0, 0] ++ [1])⟩) ∧
    round_product wide_image.height upper_half.height = 1 ∧
    write_image_crop tall_memory OutputBuffer.new wide_image upper_half Pack.nil () = none := by
  decide

end Jaw
